import Mathlib

/-!
Verification of the biolink server's bio-page registry, link manager, theme
store, auth flow and admin surface.

The relational rows of the drizzle schema (`shared/schema.ts`) are modelled as
structures, a table as a `List` of rows kept in insertion order, and the whole
database as a record of four tables.  Timestamps are integer milliseconds;
`jsonb` payloads that no operation inspects (theme colors, gradients, fonts,
layout) are opaque strings.  Each storage method of `DatabaseStorage`
(`server/storage.ts`) and each route handler under verification becomes a pure
function from the database (plus the request data and the values the real code
obtains from its environment: the current time, freshly generated row ids, the
gravatar lookup result) to the response and the new database.
-/

/-- Row of the `users` table.  The `is_admin` column referenced by
`server/adminRoutes.ts` is included alongside the columns of the schema file. -/
structure User where
  id : String
  email : String
  password : Option String
  firstName : Option String
  lastName : Option String
  profileImageUrl : Option String
  isEmailVerified : Bool
  emailVerificationToken : Option String
  emailVerificationExpires : Option Int
  passwordResetToken : Option String
  passwordResetExpires : Option Int
  isAdmin : Bool
  createdAt : Int
  updatedAt : Int
deriving DecidableEq, Repr

/-- Row of the `profiles` table (a bio page). -/
structure Profile where
  id : String
  userId : String
  pageName : String
  displayName : String
  bio : String
  profileImageUrl : Option String
  profileViews : Int
  linkClicks : Int
  isDefault : Bool
  createdAt : Int
  updatedAt : Int
deriving DecidableEq, Repr

/-- Row of the `social_links` table. -/
structure SocialLink where
  id : String
  profileId : String
  platform : String
  title : String
  url : String
  description : Option String
  order : Int
  isActive : Bool
  clicks : Int
deriving DecidableEq, Repr

/-- Row of the `themes` table; the four structured sub-documents are opaque. -/
structure Theme where
  id : String
  profileId : String
  name : String
  isActive : Bool
  colors : String
  gradients : String
  fonts : String
  layout : String
  createdAt : Int
  updatedAt : Int
deriving DecidableEq, Repr

/-- The persistent database: the four tables, rows in insertion order. -/
structure DB where
  users : List User
  profiles : List Profile
  socialLinks : List SocialLink
  themes : List Theme
deriving DecidableEq, Repr

/-- An SQL `UPDATE .. SET .. WHERE p`: apply `f` to every row satisfying `p`. -/
def updateWhere (p : α → Bool) (f : α → α) (l : List α) : List α :=
  l.map fun x => if p x then f x else x

/-- An SQL `DELETE .. WHERE p`: drop every row satisfying `p`. -/
def deleteWhere (p : α → Bool) (l : List α) : List α :=
  l.filter fun x => !(p x)

/-- JavaScript falsiness of an optional string: `undefined`/`null` or `""`. -/
def jsFalsy : Option String → Bool
  | none => true
  | some s => s == ""

/-- JavaScript truthiness of an optional string. -/
def jsTruthy (o : Option String) : Bool := !(jsFalsy o)

/-! Storage methods of `DatabaseStorage` (`server/storage.ts`).  A drizzle
`const [row] = await db.select().from(t).where(p)` is the first matching row,
`List.find?`. -/

def getUser (db : DB) (id : String) : Option User :=
  db.users.find? (fun u => u.id == id)

def getUserByEmail (db : DB) (email : String) : Option User :=
  db.users.find? (fun u => u.email == email)

def getUserByVerificationToken (db : DB) (token : String) : Option User :=
  db.users.find? (fun u => u.emailVerificationToken == some token)

def getProfileById (db : DB) (id : String) : Option Profile :=
  db.profiles.find? (fun p => p.id == id)

def getProfileByPageName (db : DB) (pageName : String) : Option Profile :=
  db.profiles.find? (fun p => p.pageName == pageName)

/-- Profiles of a user, `ORDER BY created_at ASC` (stable on ties). -/
def getProfilesByUserId (db : DB) (userId : String) : List Profile :=
  (db.profiles.filter (fun p => p.userId == userId)).mergeSort
    (fun a b => a.createdAt ≤ b.createdAt)

def getDefaultProfileByUserId (db : DB) (userId : String) : Option Profile :=
  db.profiles.find? (fun p => p.userId == userId && p.isDefault)

/-- A `Partial<User>` patch as passed to `storage.updateUser` by the routes
under verification.  `none` means the field is absent from the patch; for the
nullable columns the inner option is the new column value. -/
structure UserPatch where
  password : Option (Option String)
  isEmailVerified : Option Bool
  emailVerificationToken : Option (Option String)
  emailVerificationExpires : Option (Option Int)
  isAdmin : Option Bool
deriving DecidableEq, Repr

/-- The empty patch (no field present). -/
def UserPatch.empty : UserPatch :=
  { password := none, isEmailVerified := none, emailVerificationToken := none,
    emailVerificationExpires := none, isAdmin := none }

/-- The patch `{ isAdmin: b }` sent by the admin-toggle handlers. -/
def adminPatch (b : Bool) : UserPatch :=
  { UserPatch.empty with isAdmin := some b }

/-- The patch clearing the verification token sent by the verify-email
handler: `{ isEmailVerified: true, emailVerificationToken: null,
emailVerificationExpires: null }`. -/
def verifiedPatch : UserPatch :=
  { UserPatch.empty with
    isEmailVerified := some true,
    emailVerificationToken := some none,
    emailVerificationExpires := some none }

/-- Apply a patch to a user row, also setting `updatedAt` as the source does. -/
def applyUserPatch (patch : UserPatch) (now : Int) (u : User) : User :=
  { u with
    password := patch.password.getD u.password,
    isEmailVerified := patch.isEmailVerified.getD u.isEmailVerified,
    emailVerificationToken := patch.emailVerificationToken.getD u.emailVerificationToken,
    emailVerificationExpires := patch.emailVerificationExpires.getD u.emailVerificationExpires,
    isAdmin := patch.isAdmin.getD u.isAdmin,
    updatedAt := now }

/-- `DatabaseStorage.updateUser`: update the row with the given id and return
the updated row (or `none` when no row matched). -/
def updateUser (db : DB) (id : String) (patch : UserPatch) (now : Int) :
    DB × Option User :=
  let newUsers := updateWhere (fun u => u.id == id) (applyUserPatch patch now) db.users
  ({ db with users := newUsers }, newUsers.find? (fun u => u.id == id))

/-- The body of a `POST /api/bio-pages` request after schema validation
(`createBioPageSchema`).  `profileImageUrl` is optional and may be `""`. -/
structure CreateBioPage where
  pageName : String
  displayName : String
  bio : String
  profileImageUrl : Option String
deriving DecidableEq, Repr

/-- `DatabaseStorage.createBioPage`.  `gravatar` is the outcome of the
`getBestProfileImageUrl` collaborator call (`none` when it throws, in which
case the source logs and continues with no image); `newId` is the id the
database generates for the inserted row; `now` is the current time.  The first
page of a user is marked default.  The schema's UNIQUE constraint on
`page_name` is not modelled here: an insert that the database would reject
with a unique-key violation surfaces instead through the caller's failure
oracle (`createFails` in `verifyEmailHandler`), which must be set to `true`
whenever the inserted `pageName` already occurs in `db.profiles`. -/
def createBioPage (db : DB) (userId : String) (pd : CreateBioPage)
    (gravatar : Option String) (newId : String) (now : Int) : DB × Profile :=
  let existingProfiles := getProfilesByUserId db userId
  let isFirstPage := existingProfiles.length == 0
  let userEmail : Option String := (getUser db userId).map (fun u => u.email)
  let imageUrl : Option String :=
    if jsFalsy pd.profileImageUrl && jsTruthy userEmail then gravatar
    else pd.profileImageUrl
  let profile : Profile :=
    { id := newId, userId := userId, pageName := pd.pageName,
      displayName := pd.displayName, bio := pd.bio,
      profileImageUrl := if jsFalsy imageUrl then none else imageUrl,
      profileViews := 0, linkClicks := 0, isDefault := isFirstPage,
      createdAt := now, updatedAt := now }
  ({ db with profiles := db.profiles ++ [profile] }, profile)

/-- `DatabaseStorage.deleteBioPage`: returns `false` without touching the
database when the page is missing or not owned by the caller; otherwise, when
the page is the default and the user has another page, first promotes an
arbitrary (first matching) other page to default, then deletes the page. -/
def deleteBioPage (db : DB) (id : String) (userId : String) (now : Int) :
    DB × Bool :=
  match getProfileById db id with
  | none => (db, false)
  | some profile =>
    if profile.userId != userId then (db, false)
    else
      let db1 :=
        if profile.isDefault then
          let otherProfiles :=
            (db.profiles.filter (fun p => p.userId == userId && p.id != id)).take 1
          match otherProfiles.head? with
          | some other =>
            let promoted := updateWhere (fun p => p.id == other.id)
              (fun p => { p with isDefault := true, updatedAt := now }) db.profiles
            { db with profiles := promoted }
          | none => db
        else db
      let deleted := db1.profiles.filter (fun p => p.id == id && p.userId == userId)
      ({ db1 with profiles :=
          deleteWhere (fun p => p.id == id && p.userId == userId) db1.profiles },
       deleted.length > 0)

/-- `DatabaseStorage.setDefaultBioPage`: inside one transaction, unset the
default flag on all of the user's pages, then set it on the target; when the
second update affects no row the transaction aborts and the database is left
unchanged (`Except.error`). -/
def setDefaultBioPage (db : DB) (id : String) (userId : String) (now : Int) :
    Except String DB :=
  let unset := updateWhere (fun p => p.userId == userId)
      (fun p => { p with isDefault := false, updatedAt := now }) db.profiles
  let target := updateWhere (fun p => p.id == id && p.userId == userId)
      (fun p => { p with isDefault := true, updatedAt := now }) unset
  let affected := target.filter (fun p => p.id == id && p.userId == userId)
  if affected.length == 0 then Except.error "Profile not found or does not belong to user"
  else Except.ok { db with profiles := target }

/-- Links of a profile, `ORDER BY "order" ASC` (stable on ties). -/
def getSocialLinks (db : DB) (profileId : String) : List SocialLink :=
  (db.socialLinks.filter (fun l => l.profileId == profileId)).mergeSort
    (fun a b => a.order ≤ b.order)

def getSocialLink (db : DB) (id : String) : Option SocialLink :=
  db.socialLinks.find? (fun l => l.id == id)

/-- The `for` loop of `DatabaseStorage.reorderSocialLinks`: one `UPDATE` per
listed id, assigning `order := i + 1` to the id at 0-based position `i`. -/
def reorderLoop : List SocialLink → List String → Nat → List SocialLink
  | links, [], _ => links
  | links, lid :: rest, i =>
    reorderLoop
      (updateWhere (fun l => l.id == lid)
        (fun l => { l with order := (i : Int) + 1 }) links)
      rest (i + 1)

/-- `DatabaseStorage.reorderSocialLinks`. -/
def reorderSocialLinks (db : DB) (linkIds : List String) : DB :=
  { db with socialLinks := reorderLoop db.socialLinks linkIds 0 }

def getActiveTheme (db : DB) (profileId : String) : Option Theme :=
  db.themes.find? (fun t => t.profileId == profileId && t.isActive)

def getTheme (db : DB) (id : String) : Option Theme :=
  db.themes.find? (fun t => t.id == id)

/-- `DatabaseStorage.activateTheme`: inside one transaction, deactivate every
theme of the profile, then activate the target where it belongs to the
profile (a mismatched profile id makes the second update match nothing). -/
def activateTheme (db : DB) (themeId : String) (profileId : String) (now : Int) : DB :=
  let deactivated := updateWhere (fun t => t.profileId == profileId)
      (fun t => { t with isActive := false, updatedAt := now }) db.themes
  let activated := updateWhere (fun t => t.id == themeId && t.profileId == profileId)
      (fun t => { t with isActive := true, updatedAt := now }) deactivated
  { db with themes := activated }

/-! Route handlers.  Each handler takes the database (and session where
relevant) together with the request data, and returns the response outcome
and the resulting database/session. -/

/-- Outcome of `PATCH /api/links/reorder`. -/
inductive ReorderResp
  | linkNotFound (linkId : String)
  | forbidden
  | ok
deriving DecidableEq, Repr

/-- The ownership-checking loop of the reorder handler: for each listed id in
order, 404 when the link is missing, 403 when its parent profile is missing or
not owned by the caller; `none` when every id passes. -/
def checkLinksOwned (db : DB) (userId : String) : List String → Option ReorderResp
  | [] => none
  | lid :: rest =>
    match getSocialLink db lid with
    | none => some (ReorderResp.linkNotFound lid)
    | some link =>
      match getProfileById db link.profileId with
      | none => some ReorderResp.forbidden
      | some profile =>
        if profile.userId != userId then some ReorderResp.forbidden
        else checkLinksOwned db userId rest

/-- The `PATCH /api/links/reorder` handler (`server/routes.ts`): check
ownership of every listed id before any mutation, then reorder. -/
def reorderLinksHandler (db : DB) (userId : String) (linkIds : List String) :
    ReorderResp × DB :=
  match checkLinksOwned db userId linkIds with
  | some r => (r, db)
  | none => (ReorderResp.ok, reorderSocialLinks db linkIds)

/-- Outcome of `GET /api/auth/verify-email`. -/
inductive VerifyResp
  | badRequest (msg : String)
  | serverError
  | ok
deriving DecidableEq, Repr

/-- Observable side effects of the verify-email handler, in execution order. -/
inductive VerifyEvent
  | profileCreated (profileId : String)
  | welcomeEmailSent (email : String) (pageName : String)
  | tokenCleared (userId : String)
deriving DecidableEq, Repr

/-- A character kept by the slug regex replace `[^a-z0-9-_]`. -/
def slugChar (c : Char) : Bool :=
  (Char.ofNat 97 ≤ c && c ≤ Char.ofNat 122) ||
  (Char.ofNat 48 ≤ c && c ≤ Char.ofNat 57) ||
  c == Char.ofNat 45 || c == Char.ofNat 95

/-- `email.split("@")[0]`: the part of the string before the first `@`,
computed character-wise. -/
def emailLocalPart (email : String) : String :=
  (email.toList.takeWhile (fun c => c != Char.ofNat 64)).asString

/-- `.toLowerCase().replace(/[^a-z0-9-_]/g, "")`, computed character-wise. -/
def slugify (s : String) : String :=
  ((s.toList.map Char.toLower).filter slugChar).asString

/-- The `while (await storage.getProfileByPageName(pageName))` loop of the
verify-email handler, with explicit fuel: keep appending an incrementing
numeric suffix to the base while the current candidate is taken. -/
def allocLoop (db : DB) (base : String) : Nat → String → Nat → String
  | 0, pageName, _ => pageName
  | fuel + 1, pageName, counter =>
    if (getProfileByPageName db pageName).isSome then
      allocLoop db base fuel (base ++ Nat.repr counter) (counter + 1)
    else pageName

/-- Page-name allocation: probe `base`, `base1`, `base2`, ... until free.  One
probe per existing profile plus one always suffices to reach a free name. -/
def allocatePageName (db : DB) (base : String) : String :=
  allocLoop db base (db.profiles.length + 1) base 1

/-- The synthetic fallback `` `user${user.id.slice(-8)}` ``. -/
def fallbackPageName (u : User) : String :=
  "user" ++ u.id.takeRight 8

/-- The display name chosen during verification: both names when both are
truthy, else the first name when truthy, else the email local part. -/
def displayNameFor (u : User) : String :=
  if jsTruthy u.firstName && jsTruthy u.lastName then
    u.firstName.getD "" ++ " " ++ u.lastName.getD ""
  else if jsTruthy u.firstName then u.firstName.getD ""
  else emailLocalPart u.email

/-- The page name the verify-email handler allocates for user `u` against
`db`: the slug of the email local part probed by the incrementing-suffix
loop, with the synthetic fallback substituted — after the loop, with no
uniqueness re-check — when the loop result is empty.  This is the name the
handler hands to the profile insert. -/
def allocatedPageName (db : DB) (u : User) : String :=
  let base := slugify (emailLocalPart u.email)
  let candidate := allocatePageName db base
  if candidate == "" then fallbackPageName u else candidate

/-- Concrete verification input: a user whose email local part (`!!!`) slugs
to the empty string and whose id ends in `abcd1234`. -/
def collisionUser : User :=
  { id := "zzabcd1234", email := "!!!@x.com", password := some "h",
    firstName := none, lastName := none, profileImageUrl := none,
    isEmailVerified := false, emailVerificationToken := some "t",
    emailVerificationExpires := none, passwordResetToken := none,
    passwordResetExpires := none, isAdmin := false,
    createdAt := 0, updatedAt := 0 }

/-- Concrete database: `collisionUser` plus another user's profile already
holding the page name `userabcd1234`. -/
def collisionDB : DB :=
  { users := [collisionUser],
    profiles := [{ id := "p2", userId := "u2", pageName := "userabcd1234",
                   displayName := "Other", bio := "b", profileImageUrl := none,
                   profileViews := 0, linkClicks := 0, isDefault := true,
                   createdAt := 0, updatedAt := 0 }],
    socialLinks := [], themes := [] }

/-- Concrete verification input: a user whose email local part slugs to the
non-empty string `ann`. -/
def annUser : User :=
  { id := "u1", email := "Ann@x.com", password := some "h",
    firstName := none, lastName := none, profileImageUrl := none,
    isEmailVerified := false, emailVerificationToken := some "t",
    emailVerificationExpires := none, passwordResetToken := none,
    passwordResetExpires := none, isAdmin := false,
    createdAt := 0, updatedAt := 0 }

/-- Concrete database: `annUser` plus another user's profile already holding
the page name `ann`, so the suffix loop must move past the base slug. -/
def annDB : DB :=
  { users := [annUser],
    profiles := [{ id := "p2", userId := "u2", pageName := "ann",
                   displayName := "Other", bio := "b", profileImageUrl := none,
                   profileViews := 0, linkClicks := 0, isDefault := true,
                   createdAt := 0, updatedAt := 0 }],
    socialLinks := [], themes := [] }

/-- The `GET /api/auth/verify-email` handler (`server/auth.ts`).  `token` is
the query parameter; `newProfileId` the id the database would generate for a
created profile; `gravatar` the collaborator outcome as in `createBioPage`;
`createFails` tells whether the profile insert raises (e.g. a unique-key
violation), in which case the error propagates to the catch-all and nothing
is persisted.  The slug loop's emptiness test `!pageName || pageName.trim()
=== ''` collapses to an emptiness check because slug output never contains
whitespace.  Returns the response, the new database and the event trace. -/
def verifyEmailHandler (db : DB) (token : Option String) (now : Int)
    (newProfileId : String) (gravatar : Option String) (createFails : Bool) :
    VerifyResp × DB × List VerifyEvent :=
  match token with
  | none => (VerifyResp.badRequest "Invalid verification token", db, [])
  | some tok =>
    match getUserByVerificationToken db tok with
    | none => (VerifyResp.badRequest "Invalid or expired verification token", db, [])
    | some user =>
      let expired : Bool :=
        match user.emailVerificationExpires with
        | some e => decide (e < now)
        | none => false
      if expired then
        (VerifyResp.badRequest "Verification token has expired", db, [])
      else
        match getDefaultProfileByUserId db user.id with
        | some _ =>
          let (db1, _) := updateUser db user.id verifiedPatch now
          (VerifyResp.ok, db1, [VerifyEvent.tokenCleared user.id])
        | none =>
          let base := slugify (emailLocalPart user.email)
          let candidate := allocatePageName db base
          let pageName := if candidate == "" then fallbackPageName user else candidate
          if createFails then (VerifyResp.serverError, db, [])
          else
            let pd : CreateBioPage :=
              { pageName := pageName, displayName := displayNameFor user,
                bio := "Welcome to my LinkBoard profile!",
                profileImageUrl :=
                  if jsTruthy user.profileImageUrl then user.profileImageUrl else none }
            let (db1, profile) := createBioPage db user.id pd gravatar newProfileId now
            let (db2, _) := updateUser db1 user.id verifiedPatch now
            (VerifyResp.ok, db2,
              [VerifyEvent.profileCreated profile.id,
               VerifyEvent.welcomeEmailSent user.email profile.pageName,
               VerifyEvent.tokenCleared user.id])

/-- A session row as the admin routes see it: the effective user id, the
stored original admin id, and the impersonation marker (absent = false). -/
structure Session where
  userId : Option String
  originalAdminId : Option String
  isImpersonating : Bool
deriving DecidableEq, Repr

/-- Failures of the `isAdmin` middleware (`server/adminRoutes.ts`). -/
inductive AuthErr
  | notAuthenticated
  | userNotFound
  | notAdmin
deriving DecidableEq, Repr

/-- The `isAdmin` middleware: resolve the session's effective user id and
require the admin flag on that user. -/
def adminGate (db : DB) (s : Session) : Except AuthErr User :=
  if !(jsTruthy s.userId) then Except.error AuthErr.notAuthenticated
  else
    match getUser db (s.userId.getD "") with
    | none => Except.error AuthErr.userNotFound
    | some user =>
      if !user.isAdmin then Except.error AuthErr.notAdmin
      else Except.ok user

/-- Strip the password digest from a user row before sending it to a client
(the source spreads the row and sets `password: undefined`). -/
def stripPassword (u : User) : User := { u with password := none }

/-- Outcome of the privileged admin mutations. -/
inductive AdminResp
  | badRequest (msg : String)
  | notFound
  | ok
deriving DecidableEq, Repr

/-- The `DELETE /api/admin/users/:id` handler: refuse self-deletion, else
cascade-delete the target's profiles and then the user row. -/
def deleteUserHandler (db : DB) (adminId : String) (targetId : String) :
    AdminResp × DB :=
  if targetId == adminId then
    (AdminResp.badRequest "Cannot delete your own account", db)
  else
    let db1 := { db with profiles := deleteWhere (fun p => p.userId == targetId) db.profiles }
    let db2 := { db1 with users := deleteWhere (fun u => u.id == targetId) db1.users }
    (AdminResp.ok, db2)

/-- The `PATCH /api/admin/users/:id/admin` handler: refuse removing one's own
admin flag, else update and return the stripped updated user (404 when the
target does not exist). -/
def toggleAdminHandler (db : DB) (adminId : String) (targetId : String)
    (newAdminStatus : Bool) (now : Int) : AdminResp × DB × Option User :=
  if targetId == adminId && !newAdminStatus then
    (AdminResp.badRequest "Cannot remove your own admin status", db, none)
  else
    let (db1, updated) := updateUser db targetId (adminPatch newAdminStatus) now
    match updated with
    | none => (AdminResp.notFound, db1, none)
    | some u => (AdminResp.ok, db1, some (stripPassword u))

/-- The `POST /api/admin/users/bulk-delete` handler. -/
def bulkDeleteUsersHandler (db : DB) (adminId : String) (userIds : List String) :
    AdminResp × DB :=
  if userIds.isEmpty then
    (AdminResp.badRequest "userIds must be a non-empty array", db)
  else if userIds.contains adminId then
    (AdminResp.badRequest "Cannot delete your own account", db)
  else
    let db1 := { db with profiles := deleteWhere (fun p => userIds.contains p.userId) db.profiles }
    let db2 := { db1 with users := deleteWhere (fun u => userIds.contains u.id) db1.users }
    (AdminResp.ok, db2)

/-- The `POST /api/admin/users/bulk-admin` handler: refuse when the caller's
own id is targeted with `false`, else update each listed user in turn. -/
def bulkToggleAdminHandler (db : DB) (adminId : String) (userIds : List String)
    (newAdminStatus : Bool) (now : Int) : AdminResp × DB :=
  if userIds.isEmpty then
    (AdminResp.badRequest "userIds must be a non-empty array", db)
  else if userIds.contains adminId && !newAdminStatus then
    (AdminResp.badRequest "Cannot remove your own admin status", db)
  else
    let db1 := userIds.foldl
      (fun acc uid => (updateUser acc uid (adminPatch newAdminStatus) now).1) db
    (AdminResp.ok, db1)

/-- The `POST /api/admin/users/:id/impersonate` handler: overwrite the
session's effective user id with the target, remembering the admin id, and
return the stripped target user. -/
def impersonateHandler (db : DB) (s : Session) (adminId : String)
    (targetId : String) : AdminResp × Session × Option User :=
  match getUser db targetId with
  | none => (AdminResp.notFound, s, none)
  | some user =>
    (AdminResp.ok,
     { userId := some targetId, originalAdminId := some adminId, isImpersonating := true },
     some (stripPassword user))

/-- Outcome of `POST /api/admin/users/stop-impersonate`. -/
inductive StopResp
  | authFailed (e : AuthErr)
  | stopped
deriving DecidableEq, Repr

/-- The `POST /api/admin/users/stop-impersonate` handler, with the `isAdmin`
middleware in front: when the middleware passes and the session carries an
impersonation marker with a truthy original admin id, restore the admin id;
otherwise leave the session as is and still answer with success. -/
def stopImpersonateHandler (db : DB) (s : Session) : StopResp × Session :=
  match adminGate db s with
  | Except.error e => (StopResp.authFailed e, s)
  | Except.ok _ =>
    if s.isImpersonating && jsTruthy s.originalAdminId then
      (StopResp.stopped,
       { userId := s.originalAdminId, originalAdminId := none, isImpersonating := false })
    else (StopResp.stopped, s)

/-- The user-bearing payload of the `GET /api/admin/stats` response.  The
calendar-bucketed `userGrowth` series and the scalar counts are aggregates
with no user rows in them and are omitted; `recentUsers` and `topProfiles`
are sent exactly as selected.  Seven days are modelled as a fixed span of
milliseconds. -/
structure StatsResp where
  totalUsers : Nat
  totalProfiles : Nat
  totalLinks : Nat
  recentUsers : List User
  topProfiles : List Profile
deriving DecidableEq, Repr

/-- The `GET /api/admin/stats` handler: the recent-user rows are selected with
`db.select().from(users)` and placed in the response unmapped. -/
def statsHandler (db : DB) (now : Int) : StatsResp :=
  let sevenDaysAgo := now - 7 * 86400000
  let recentUsers :=
    ((db.users.filter (fun u => sevenDaysAgo ≤ u.createdAt)).mergeSort
      (fun a b => b.createdAt ≤ a.createdAt)).take 10
  let topProfiles :=
    (db.profiles.mergeSort (fun a b => b.profileViews ≤ a.profileViews)).take 10
  { totalUsers := db.users.length, totalProfiles := db.profiles.length,
    totalLinks := db.socialLinks.length,
    recentUsers := recentUsers, topProfiles := topProfiles }

/-- Case-insensitive containment, modelling SQL `col ILIKE '%search%'` (null
columns never match). -/
def ilike (col : Option String) (search : String) : Bool :=
  match col with
  | none => false
  | some v => decide (search.toLower.toList <:+: v.toLower.toList)

/-- The search predicate of `GET /api/admin/users`. -/
def userSearchMatch (search : String) (u : User) : Bool :=
  if search == "" then true
  else ilike (some u.email) search || ilike u.firstName search || ilike u.lastName search

/-- The status filter of `GET /api/admin/users`. -/
def userFilterMatch (filterBy : String) (u : User) : Bool :=
  if filterBy == "admin" then u.isAdmin
  else if filterBy == "verified" then u.isEmailVerified
  else if filterBy == "unverified" then !u.isEmailVerified
  else true

/-- The sort key comparison of `GET /api/admin/users` (nullable name column
compared by its value with nulls first; row order among equal keys is not
observable by the properties proved here). -/
def userSortLE (sortBy : String) (a b : User) : Bool :=
  if sortBy == "email" then a.email ≤ b.email
  else if sortBy == "name" then a.firstName.getD "" ≤ b.firstName.getD ""
  else a.createdAt ≤ b.createdAt

/-- The `GET /api/admin/users` handler: filter, sort, paginate, and map every
returned row through password stripping. -/
def listUsersHandler (db : DB) (page : Nat) (limit : Nat) (search : String)
    (filterBy : String) (sortBy : String) (sortOrder : String) : List User :=
  let filtered := db.users.filter
    (fun u => userSearchMatch search u && userFilterMatch filterBy u)
  let sorted :=
    if sortOrder == "asc" then filtered.mergeSort (userSortLE sortBy)
    else filtered.mergeSort (fun a b => userSortLE sortBy b a)
  ((sorted.drop ((page - 1) * limit)).take limit).map stripPassword

/-! Invariant vocabulary and the operation-sequence relation for the
default-page invariant. -/

/-- Number of pages a user owns. -/
def pageCount (db : DB) (userId : String) : Nat :=
  db.profiles.countP (fun p => p.userId == userId)

/-- Number of pages of a user carrying the default flag. -/
def defaultCount (db : DB) (userId : String) : Nat :=
  db.profiles.countP (fun p => p.userId == userId && p.isDefault)

/-- The default-page invariant: every user with at least one page has exactly
one default page. -/
def defaultInvariant (db : DB) : Prop :=
  ∀ uid : String, 0 < pageCount db uid → defaultCount db uid = 1

/-- Number of active themes of a profile. -/
def activeCount (db : DB) (profileId : String) : Nat :=
  db.themes.countP (fun t => t.profileId == profileId && t.isActive)

/-- One bio-page operation by any caller: a page creation (with a database-
generated fresh row id), a page deletion attempt, or a successful
default-page switch.  A failed `setDefaultBioPage` aborts its transaction and
leaves the database unchanged, so it does not move the state. -/
inductive BioStep : DB → DB → Prop
  | create (db : DB) (userId : String) (pd : CreateBioPage) (gravatar : Option String)
      (newId : String) (now : Int) (hfresh : ∀ p ∈ db.profiles, p.id ≠ newId) :
      BioStep db (createBioPage db userId pd gravatar newId now).1
  | delete (db : DB) (id userId : String) (now : Int) :
      BioStep db (deleteBioPage db id userId now).1
  | setDefault (db : DB) (id userId : String) (now : Int) (db' : DB)
      (h : setDefaultBioPage db id userId now = Except.ok db') :
      BioStep db db'

/-- Equality of social links on every column except `order`. -/
def sameExceptOrder (a b : SocialLink) : Prop :=
  a.id = b.id ∧ a.profileId = b.profileId ∧ a.platform = b.platform ∧
  a.title = b.title ∧ a.url = b.url ∧ a.description = b.description ∧
  a.isActive = b.isActive ∧ a.clicks = b.clicks

/-- Position of the first occurrence of a string in a list (the index a
0-based reorder loop iteration would reach it at). -/
def posIn (lid : String) : List String → Option Nat
  | [] => none
  | x :: rest => if x == lid then some 0 else (posIn lid rest).map (· + 1)

/-- The k-th candidate the page-name loop probes: the base itself, then the
base with the decimal suffix `k`. -/
def allocCandidate (base : String) : Nat → String
  | 0 => base
  | k + 1 => base ++ Nat.repr (k + 1)

/-! Shared lemmas about the SQL-style list primitives. -/

theorem length_updateWhere (p : α → Bool) (f : α → α) (l : List α) :
    (updateWhere p f l).length = l.length := by
  simp [updateWhere]

theorem getElem_updateWhere (p : α → Bool) (f : α → α) (l : List α) (i : Nat)
    (h : i < (updateWhere p f l).length) (h' : i < l.length) :
    (updateWhere p f l)[i] = if p l[i] then f l[i] else l[i] := by
  simp [updateWhere]

theorem countP_updateWhere (p : α → Bool) (f : α → α) (q : α → Bool) (l : List α) :
    (updateWhere p f l).countP q =
      l.countP (fun x => if p x then q (f x) else q x) := by
  rw [updateWhere, List.countP_map]
  apply List.countP_congr
  intro x _
  by_cases hp : p x <;> simp [hp, Function.comp]

theorem countP_deleteWhere (p : α → Bool) (q : α → Bool) (l : List α) :
    (deleteWhere p l).countP q = l.countP (fun x => q x && !(p x)) := by
  rw [deleteWhere, List.countP_filter]

/-- A list whose image under `f` has no duplicates holds at most one element
with any given `f`-value. -/
theorem countP_le_one_of_nodup_map (f : α → β) [DecidableEq β] (l : List α)
    (hnd : (l.map f).Nodup) (b : β) :
    l.countP (fun a => f a == b) ≤ 1 := by
  induction l with
  | nil => simp
  | cons a l ih =>
    simp only [List.map_cons, List.nodup_cons, List.mem_map] at hnd
    rw [List.countP_cons]
    by_cases hab : f a = b
    · have hzero : l.countP (fun x => f x == b) = 0 := by
        rw [List.countP_eq_zero]
        intro x hx hfx
        exact hnd.1 ⟨x, hx, by simpa [hab] using hfx⟩
      simp [hzero, hab]
    · simp only [beq_iff_eq, hab, if_false]
      simpa using ih hnd.2

/-- `find?` returns the unique element satisfying the predicate. -/
theorem find?_eq_some_of_unique {p : α → Bool} {l : List α} {a : α}
    (ha : a ∈ l) (hpa : p a) (huniq : ∀ x ∈ l, p x → x = a) :
    l.find? p = some a := by
  induction l with
  | nil => cases ha
  | cons x l ih =>
    rcases List.mem_cons.mp ha with rfl | hal
    · simp [List.find?_cons, hpa]
    · rw [List.find?_cons]
      by_cases hpx : p x
      · have := huniq x (List.mem_cons_self x l) hpx
        subst this
        simp [hpx]
      · simp only [hpx]
        exact ih hal (fun y hy hpy => huniq y (List.mem_cons_of_mem x hy) hpy)

/-- Membership with a satisfied predicate forces `find?` to succeed. -/
theorem find?_isSome_of_mem {p : α → Bool} {l : List α} {a : α}
    (ha : a ∈ l) (hpa : p a) : (l.find? p).isSome := by
  rw [List.find?_isSome]
  exact ⟨a, ha, hpa⟩

/-! Claim C8: admin self-protection. -/

/-- C8: an admin toggling their own admin flag off (directly or through the
bulk endpoint) or deleting their own account (directly or through the bulk
endpoint) is rejected with a 400-class error, and the database — in
particular the caller's own user row — is left unchanged. -/
theorem admin_self_protection (db : DB) (adminId : String) (now : Int)
    (ids1 ids2 : List String) (h1 : adminId ∈ ids1) (h2 : adminId ∈ ids2) :
    toggleAdminHandler db adminId adminId false now =
      (AdminResp.badRequest "Cannot remove your own admin status", db, none) ∧
    bulkToggleAdminHandler db adminId ids1 false now =
      (AdminResp.badRequest "Cannot remove your own admin status", db) ∧
    deleteUserHandler db adminId adminId =
      (AdminResp.badRequest "Cannot delete your own account", db) ∧
    bulkDeleteUsersHandler db adminId ids2 =
      (AdminResp.badRequest "Cannot delete your own account", db) := by
  refine ⟨?_, ?_, ?_, ?_⟩
  · simp [toggleAdminHandler]
  · simp [bulkToggleAdminHandler, List.isEmpty_iff, List.ne_nil_of_mem h1, h1]
  · simp [deleteUserHandler]
  · simp [bulkDeleteUsersHandler, List.isEmpty_iff, List.ne_nil_of_mem h2, h2]

/-- Witness for C8 at a concrete database and caller. -/
theorem admin_self_protection_witness :
    toggleAdminHandler { users := [], profiles := [], socialLinks := [], themes := [] }
        "a1" "a1" false 0 =
      (AdminResp.badRequest "Cannot remove your own admin status",
       { users := [], profiles := [], socialLinks := [], themes := [] }, none) ∧
    bulkToggleAdminHandler { users := [], profiles := [], socialLinks := [], themes := [] }
        "a1" ["a1", "b2"] false 0 =
      (AdminResp.badRequest "Cannot remove your own admin status",
       { users := [], profiles := [], socialLinks := [], themes := [] }) ∧
    deleteUserHandler { users := [], profiles := [], socialLinks := [], themes := [] }
        "a1" "a1" =
      (AdminResp.badRequest "Cannot delete your own account",
       { users := [], profiles := [], socialLinks := [], themes := [] }) ∧
    bulkDeleteUsersHandler { users := [], profiles := [], socialLinks := [], themes := [] }
        "a1" ["b2", "a1"] =
      (AdminResp.badRequest "Cannot delete your own account",
       { users := [], profiles := [], socialLinks := [], themes := [] }) :=
  admin_self_protection _ "a1" 0 ["a1", "b2"] ["b2", "a1"]
    (by decide) (by decide)

/-! Claim C10: stop-impersonation endpoint. -/

/-- C10: the stop-impersonate endpoint runs the admin check against the
session's effective user id, so with a non-admin impersonation target the
request fails with 403 and the session still points at the target; and when
the middleware passes but the session carries no impersonation state (marker
unset or original admin id absent), the handler leaves the session — in
particular its `userId` — unchanged and still reports success. -/
theorem stop_impersonate_checks (db : DB) (s : Session) (target : String) (u : User)
    (v : User) :
    (s.userId = some target → target ≠ "" → getUser db target = some u →
      u.isAdmin = false →
      stopImpersonateHandler db s = (StopResp.authFailed AuthErr.notAdmin, s)) ∧
    (adminGate db s = Except.ok v →
      (s.isImpersonating = false ∨ jsTruthy s.originalAdminId = false) →
      stopImpersonateHandler db s = (StopResp.stopped, s)) := by
  constructor
  · intro hsid htgt hget hadm
    have htr : jsTruthy (some target) = true := by
      simp [jsTruthy, jsFalsy, htgt]
    simp [stopImpersonateHandler, adminGate, htr, hsid, hget, hadm]
  · intro hgate hnone
    rw [stopImpersonateHandler, hgate]
    rcases hnone with hni | hoid
    · simp [hni]
    · simp [hoid]

/-- Witness for C10: a session impersonating the non-admin user `t` is
rejected with 403 and left pointing at `t`; a non-impersonating admin session
gets success with its user id untouched. -/
theorem stop_impersonate_checks_witness :
    (stopImpersonateHandler
        { users := [{ id := "t", email := "t@x.com", password := none,
                      firstName := none, lastName := none, profileImageUrl := none,
                      isEmailVerified := true, emailVerificationToken := none,
                      emailVerificationExpires := none, passwordResetToken := none,
                      passwordResetExpires := none, isAdmin := false,
                      createdAt := 0, updatedAt := 0 }],
          profiles := [], socialLinks := [], themes := [] }
        { userId := some "t", originalAdminId := some "a", isImpersonating := true } =
      (StopResp.authFailed AuthErr.notAdmin,
       { userId := some "t", originalAdminId := some "a", isImpersonating := true })) ∧
    (stopImpersonateHandler
        { users := [{ id := "a", email := "a@x.com", password := none,
                      firstName := none, lastName := none, profileImageUrl := none,
                      isEmailVerified := true, emailVerificationToken := none,
                      emailVerificationExpires := none, passwordResetToken := none,
                      passwordResetExpires := none, isAdmin := true,
                      createdAt := 0, updatedAt := 0 }],
          profiles := [], socialLinks := [], themes := [] }
        { userId := some "a", originalAdminId := none, isImpersonating := false } =
      (StopResp.stopped,
       { userId := some "a", originalAdminId := none, isImpersonating := false })) := by
  constructor
  · exact (stop_impersonate_checks _ _ "t"
      { id := "t", email := "t@x.com", password := none,
        firstName := none, lastName := none, profileImageUrl := none,
        isEmailVerified := true, emailVerificationToken := none,
        emailVerificationExpires := none, passwordResetToken := none,
        passwordResetExpires := none, isAdmin := false,
        createdAt := 0, updatedAt := 0 }
      { id := "t", email := "t@x.com", password := none,
        firstName := none, lastName := none, profileImageUrl := none,
        isEmailVerified := true, emailVerificationToken := none,
        emailVerificationExpires := none, passwordResetToken := none,
        passwordResetExpires := none, isAdmin := false,
        createdAt := 0, updatedAt := 0 }).1
      rfl (by decide) (by decide) rfl
  · exact (stop_impersonate_checks _ _ "a"
      { id := "a", email := "a@x.com", password := none,
        firstName := none, lastName := none, profileImageUrl := none,
        isEmailVerified := true, emailVerificationToken := none,
        emailVerificationExpires := none, passwordResetToken := none,
        passwordResetExpires := none, isAdmin := true,
        createdAt := 0, updatedAt := 0 }
      { id := "a", email := "a@x.com", password := none,
        firstName := none, lastName := none, profileImageUrl := none,
        isEmailVerified := true, emailVerificationToken := none,
        emailVerificationExpires := none, passwordResetToken := none,
        passwordResetExpires := none, isAdmin := true,
        createdAt := 0, updatedAt := 0 }).2
      rfl (Or.inl rfl)

/-! Claim C2: single active theme per profile. -/

/-- Closed form of `activateTheme`: every theme of the profile is mapped to
its deactivated (or, for the target id, activated) version; themes of other
profiles are untouched. -/
theorem activateTheme_themes (db : DB) (themeId profileId : String) (now : Int) :
    (activateTheme db themeId profileId now).themes =
      db.themes.map (fun t =>
        if t.profileId == profileId then
          if t.id == themeId then { t with isActive := true, updatedAt := now }
          else { t with isActive := false, updatedAt := now }
        else t) := by
  simp only [activateTheme, updateWhere, List.map_map]
  apply List.map_congr_left
  intro t _
  by_cases hp : t.profileId == profileId
  · by_cases hi : t.id == themeId <;> simp [Function.comp, hp, hi]
  · simp [Function.comp, hp]

/-- C2: `activateTheme` keeps every profile at no more than one active theme
(given unique theme row ids and the invariant before the call); when the
target theme belongs to the given profile it becomes the unique active theme
of that profile, and when no theme of the profile has the target id the call
leaves the profile with no active theme at all. -/
theorem activate_theme_single_active (db : DB) (themeId profileId : String)
    (now : Int) (hids : (db.themes.map (fun t => t.id)).Nodup)
    (hinv : ∀ pid, activeCount db pid ≤ 1) :
    (∀ pid, activeCount (activateTheme db themeId profileId now) pid ≤ 1) ∧
    (∀ t0, t0 ∈ db.themes → t0.id = themeId → t0.profileId = profileId →
      getActiveTheme (activateTheme db themeId profileId now) profileId =
        some { t0 with isActive := true, updatedAt := now } ∧
      activeCount (activateTheme db themeId profileId now) profileId = 1) ∧
    ((∀ t ∈ db.themes, ¬(t.id = themeId ∧ t.profileId = profileId)) →
      activeCount (activateTheme db themeId profileId now) profileId = 0) := by
  have hmap := activateTheme_themes db themeId profileId now
  have hcnt : ∀ pid, activeCount (activateTheme db themeId profileId now) pid =
      db.themes.countP (fun t =>
        if t.profileId == profileId then
          (if t.id == themeId then t.profileId == pid else false)
        else t.profileId == pid && t.isActive) := by
    intro pid
    rw [activeCount, hmap, List.countP_map]
    apply List.countP_congr
    intro t _
    by_cases hp : t.profileId == profileId
    · by_cases hi : t.id == themeId <;> simp [Function.comp, hp, hi]
    · simp [Function.comp, hp]
  refine ⟨?_, ?_, ?_⟩
  · intro pid
    rw [hcnt pid]
    by_cases hpid : profileId = pid
    · subst hpid
      have hle : db.themes.countP (fun t =>
          if t.profileId == profileId then
            (if t.id == themeId then t.profileId == profileId else false)
          else t.profileId == profileId && t.isActive) ≤
          db.themes.countP (fun t => t.id == themeId) := by
        apply List.countP_mono_left
        intro t _ hpt
        by_cases hp : t.profileId == profileId
        · by_cases hi : t.id == themeId
          · exact hi
          · simp [hp, hi] at hpt
        · simp [hp] at hpt
      exact hle.trans (countP_le_one_of_nodup_map (fun t => t.id) db.themes hids themeId)
    · have : db.themes.countP (fun t =>
          if t.profileId == profileId then
            (if t.id == themeId then t.profileId == pid else false)
          else t.profileId == pid && t.isActive) =
          db.themes.countP (fun t => t.profileId == pid && t.isActive) := by
        apply List.countP_congr
        intro t _
        by_cases hp : t.profileId == profileId
        · have hne : (t.profileId == pid) = false := by
            have := (beq_iff_eq ..).mp hp
            simp [this, hpid]
          by_cases hi : t.id == themeId <;> simp [hp, hi, hne]
        · simp [hp]
      rw [this]
      exact hinv pid
  · intro t0 hmem hid hpid
    constructor
    · rw [getActiveTheme, hmap, List.find?_map]
      have hfind : db.themes.find? (fun t =>
          ((fun t =>
            if t.profileId == profileId then
              if t.id == themeId then { t with isActive := true, updatedAt := now }
              else { t with isActive := false, updatedAt := now }
            else t) t).profileId == profileId &&
          ((fun t =>
            if t.profileId == profileId then
              if t.id == themeId then { t with isActive := true, updatedAt := now }
              else { t with isActive := false, updatedAt := now }
            else t) t).isActive) = some t0 := by
        apply find?_eq_some_of_unique hmem
        · simp [hpid, hid]
        · intro s hs hps
          by_cases hp : s.profileId == profileId
          · by_cases hi : s.id == themeId
            · have hsid : s.id = t0.id := by
                rw [hid]; exact (beq_iff_eq ..).mp hi
              have := List.inj_on_of_nodup_map hids hs hmem hsid
              exact this
            · simp [hp, hi] at hps
          · simp [hp] at hps
      rw [show (fun t : Theme => t.profileId == profileId && t.isActive) ∘
          (fun t =>
            if t.profileId == profileId then
              if t.id == themeId then { t with isActive := true, updatedAt := now }
              else { t with isActive := false, updatedAt := now }
            else t) = (fun t =>
          ((fun t =>
            if t.profileId == profileId then
              if t.id == themeId then { t with isActive := true, updatedAt := now }
              else { t with isActive := false, updatedAt := now }
            else t) t).profileId == profileId &&
          ((fun t =>
            if t.profileId == profileId then
              if t.id == themeId then { t with isActive := true, updatedAt := now }
              else { t with isActive := false, updatedAt := now }
            else t) t).isActive) from rfl, hfind]
      simp [hpid, hid]
    · rw [hcnt profileId]
      have hle : db.themes.countP (fun t =>
          if t.profileId == profileId then
            (if t.id == themeId then t.profileId == profileId else false)
          else t.profileId == profileId && t.isActive) ≤
          db.themes.countP (fun t => t.id == themeId) := by
        apply List.countP_mono_left
        intro t _ hpt
        by_cases hp : t.profileId == profileId
        · by_cases hi : t.id == themeId
          · exact hi
          · simp [hp, hi] at hpt
        · simp [hp] at hpt
      have hub := hle.trans (countP_le_one_of_nodup_map (fun t => t.id) db.themes hids themeId)
      have hlb : 0 < db.themes.countP (fun t =>
          if t.profileId == profileId then
            (if t.id == themeId then t.profileId == profileId else false)
          else t.profileId == profileId && t.isActive) := by
        rw [List.countP_pos_iff]
        exact ⟨t0, hmem, by simp [hpid, hid]⟩
      omega
  · intro hnone
    rw [hcnt profileId, List.countP_eq_zero]
    intro t ht
    by_cases hp : t.profileId == profileId
    · by_cases hi : t.id == themeId
      · have := hnone t ht
        exact absurd ⟨(beq_iff_eq ..).mp hi, (beq_iff_eq ..).mp hp⟩ this
      · simp [hp, hi]
    · simp [hp]

/-- Witness for C2: activating the sole (inactive) theme of profile `p1`
makes it the unique active theme. -/
theorem activate_theme_single_active_witness :
    getActiveTheme
      (activateTheme
        { users := [], profiles := [], socialLinks := [],
          themes := [{ id := "th1", profileId := "p1", name := "n",
                       isActive := false, colors := "c", gradients := "g",
                       fonts := "f", layout := "l", createdAt := 0, updatedAt := 0 }] }
        "th1" "p1" 5) "p1" =
      some { id := "th1", profileId := "p1", name := "n", isActive := true,
             colors := "c", gradients := "g", fonts := "f", layout := "l",
             createdAt := 0, updatedAt := 5 } ∧
    activeCount
      (activateTheme
        { users := [], profiles := [], socialLinks := [],
          themes := [{ id := "th1", profileId := "p1", name := "n",
                       isActive := false, colors := "c", gradients := "g",
                       fonts := "f", layout := "l", createdAt := 0, updatedAt := 0 }] }
        "th1" "p1" 5) "p1" = 1 :=
  (activate_theme_single_active
    { users := [], profiles := [], socialLinks := [],
      themes := [{ id := "th1", profileId := "p1", name := "n",
                   isActive := false, colors := "c", gradients := "g",
                   fonts := "f", layout := "l", createdAt := 0, updatedAt := 0 }] }
    "th1" "p1" 5 (by decide)
    (by intro pid; simp [activeCount, List.countP_cons])).2.1
    { id := "th1", profileId := "p1", name := "n", isActive := false,
      colors := "c", gradients := "g", fonts := "f", layout := "l",
      createdAt := 0, updatedAt := 0 }
    (by decide) rfl rfl

/-! Claim C9: reorder touches only the order column of listed links. -/

theorem sameExceptOrder_refl (a : SocialLink) : sameExceptOrder a a := by
  simp [sameExceptOrder]

theorem sameExceptOrder_trans {a b c : SocialLink}
    (h1 : sameExceptOrder a b) (h2 : sameExceptOrder b c) : sameExceptOrder a c := by
  obtain ⟨h1a, h1b, h1c, h1d, h1e, h1f, h1g, h1h⟩ := h1
  obtain ⟨h2a, h2b, h2c, h2d, h2e, h2f, h2g, h2h⟩ := h2
  exact ⟨h1a.trans h2a, h1b.trans h2b, h1c.trans h2c, h1d.trans h2d,
    h1e.trans h2e, h1f.trans h2f, h1g.trans h2g, h1h.trans h2h⟩

theorem length_reorderLoop (ids : List String) :
    ∀ (links : List SocialLink) (i : Nat),
      (reorderLoop links ids i).length = links.length := by
  induction ids with
  | nil => intro links i; rfl
  | cons lid rest ih =>
    intro links i
    simp only [reorderLoop]
    rw [ih, length_updateWhere]

theorem reorderLoop_frame (ids : List String) :
    ∀ (links : List SocialLink) (i k : Nat) (h : k < links.length)
      (h' : k < (reorderLoop links ids i).length),
      sameExceptOrder links[k] (reorderLoop links ids i)[k] ∧
      (links[k].id ∉ ids → (reorderLoop links ids i)[k] = links[k]) := by
  induction ids with
  | nil => intro links i k h h'; exact ⟨sameExceptOrder_refl _, fun _ => rfl⟩
  | cons lid rest ih =>
    intro links i k h h'
    simp only [reorderLoop] at h' ⊢
    have hlen : k < (updateWhere (fun l => l.id == lid)
        (fun l => { l with order := (i : Int) + 1 }) links).length := by
      rw [length_updateWhere]; exact h
    have hstep := getElem_updateWhere (fun l => l.id == lid)
      (fun l => { l with order := (i : Int) + 1 }) links k hlen h
    have hmid := ih (updateWhere (fun l => l.id == lid)
        (fun l => { l with order := (i : Int) + 1 }) links) (i + 1) k hlen h'
    constructor
    · refine sameExceptOrder_trans ?_ hmid.1
      rw [hstep]
      by_cases hid : links[k].id == lid
      · simp [hid, sameExceptOrder]
      · simp [hid, sameExceptOrder_refl]
    · intro hnot
      have hne : ¬(links[k].id == lid) := by
        simp only [List.mem_cons, not_or] at hnot
        simpa using hnot.1
      have heq : (updateWhere (fun l => l.id == lid)
          (fun l => { l with order := (i : Int) + 1 }) links)[k] = links[k] := by
        rw [hstep]; simp [hne]
      rw [← heq]
      apply hmid.2
      rw [heq]
      simp only [List.mem_cons, not_or] at hnot
      exact hnot.2

/-- C9: a `reorderSocialLinks(linkIds)` call leaves the other three tables
untouched, preserves the link table's length and row order, changes at most
the `order` column of any link, and leaves every link whose id is not listed
entirely unchanged. -/
theorem reorder_frame_effect (db : DB) (linkIds : List String) :
    (reorderSocialLinks db linkIds).users = db.users ∧
    (reorderSocialLinks db linkIds).profiles = db.profiles ∧
    (reorderSocialLinks db linkIds).themes = db.themes ∧
    (reorderSocialLinks db linkIds).socialLinks.length = db.socialLinks.length ∧
    ∀ k (h : k < db.socialLinks.length)
      (h' : k < (reorderSocialLinks db linkIds).socialLinks.length),
      sameExceptOrder db.socialLinks[k] (reorderSocialLinks db linkIds).socialLinks[k] ∧
      (db.socialLinks[k].id ∉ linkIds →
        (reorderSocialLinks db linkIds).socialLinks[k] = db.socialLinks[k]) := by
  refine ⟨rfl, rfl, rfl, length_reorderLoop linkIds db.socialLinks 0, ?_⟩
  intro k h h'
  exact reorderLoop_frame linkIds db.socialLinks 0 k h h'

/-- Witness for C9 on a two-link table with only the first link listed: the
unlisted link keeps all of its fields, the listed one keeps everything but
`order`. -/
theorem reorder_frame_effect_witness :
    (reorderSocialLinks
      { users := [], profiles := [],
        socialLinks :=
          [{ id := "l1", profileId := "p1", platform := "x", title := "t1",
             url := "u1", description := none, order := 7, isActive := true,
             clicks := 0 },
           { id := "l2", profileId := "p1", platform := "y", title := "t2",
             url := "u2", description := some "d", order := 3, isActive := false,
             clicks := 4 }],
        themes := [] } ["l1"]).socialLinks.length = 2 ∧
    sameExceptOrder
      ({ id := "l1", profileId := "p1", platform := "x", title := "t1",
         url := "u1", description := none, order := 7, isActive := true,
         clicks := 0 } : SocialLink)
      ((reorderSocialLinks
        { users := [], profiles := [],
          socialLinks :=
            [{ id := "l1", profileId := "p1", platform := "x", title := "t1",
               url := "u1", description := none, order := 7, isActive := true,
               clicks := 0 },
             { id := "l2", profileId := "p1", platform := "y", title := "t2",
               url := "u2", description := some "d", order := 3, isActive := false,
               clicks := 4 }],
          themes := [] } ["l1"]).socialLinks.get ⟨0, by decide⟩) := by
  constructor
  · exact (reorder_frame_effect
      { users := [], profiles := [],
        socialLinks :=
          [{ id := "l1", profileId := "p1", platform := "x", title := "t1",
             url := "u1", description := none, order := 7, isActive := true,
             clicks := 0 },
           { id := "l2", profileId := "p1", platform := "y", title := "t2",
             url := "u2", description := some "d", order := 3, isActive := false,
             clicks := 4 }],
        themes := [] } ["l1"]).2.2.2.1
  · exact ((reorder_frame_effect
      { users := [], profiles := [],
        socialLinks :=
          [{ id := "l1", profileId := "p1", platform := "x", title := "t1",
             url := "u1", description := none, order := 7, isActive := true,
             clicks := 0 },
           { id := "l2", profileId := "p1", platform := "y", title := "t2",
             url := "u2", description := some "d", order := 3, isActive := false,
             clicks := 4 }],
        themes := [] } ["l1"]).2.2.2.2 0 (by decide) (by decide)).1

/-! Claim C4: unauthorized id anywhere in a reorder request. -/

/-- C4: when every listed id names an existing link and some listed id's
link has a parent profile that is missing or not owned by the caller, the
reorder request answers 403 and the database — every link's order value — is
returned unchanged, because the per-id ownership loop runs to the first
offending id before `reorderSocialLinks` is ever called. -/
theorem reorder_rejects_unauthorized (db : DB) (userId : String)
    (linkIds : List String)
    (hex : ∀ lid ∈ linkIds, (getSocialLink db lid).isSome)
    (hbad : ∃ lid ∈ linkIds, ∃ l, getSocialLink db lid = some l ∧
      (getProfileById db l.profileId).all (fun pr => pr.userId != userId) = true) :
    reorderLinksHandler db userId linkIds = (ReorderResp.forbidden, db) := by
  have hchk : checkLinksOwned db userId linkIds = some ReorderResp.forbidden := by
    induction linkIds with
    | nil => obtain ⟨lid, hmem, -⟩ := hbad; cases hmem
    | cons lid rest ih =>
      have hl := hex lid (List.mem_cons_self lid rest)
      obtain ⟨l, hl⟩ := Option.isSome_iff_exists.mp hl
      simp only [checkLinksOwned, hl]
      cases hpr : getProfileById db l.profileId with
      | none => rfl
      | some pr =>
        by_cases hown : pr.userId = userId
        · have hrest : ∃ lid ∈ rest, ∃ l, getSocialLink db lid = some l ∧
              (getProfileById db l.profileId).all (fun pr => pr.userId != userId) = true := by
            obtain ⟨lid', hmem', l', hl', hall'⟩ := hbad
            rcases List.mem_cons.mp hmem' with rfl | hmem'
            · rw [hl] at hl'
              cases hl'
              rw [hpr] at hall'
              simp [hown] at hall'
            · exact ⟨lid', hmem', l', hl', hall'⟩
          have hih := ih (fun x hx => hex x (List.mem_cons_of_mem lid hx)) hrest
          simp [hown, hih]
        · simp [hown]
  rw [reorderLinksHandler, hchk]

/-- Witness for C4: a list whose second id belongs to another user's profile
is rejected with 403 and the database is unchanged. -/
theorem reorder_rejects_unauthorized_witness :
    reorderLinksHandler
      { users := [],
        profiles :=
          [{ id := "p1", userId := "u1", pageName := "a", displayName := "A",
             bio := "b", profileImageUrl := none, profileViews := 0,
             linkClicks := 0, isDefault := true, createdAt := 0, updatedAt := 0 },
           { id := "p2", userId := "u2", pageName := "c", displayName := "C",
             bio := "b", profileImageUrl := none, profileViews := 0,
             linkClicks := 0, isDefault := true, createdAt := 0, updatedAt := 0 }],
        socialLinks :=
          [{ id := "l1", profileId := "p1", platform := "x", title := "t1",
             url := "u1", description := none, order := 1, isActive := true,
             clicks := 0 },
           { id := "l2", profileId := "p2", platform := "y", title := "t2",
             url := "u2", description := none, order := 1, isActive := true,
             clicks := 0 }],
        themes := [] } "u1" ["l1", "l2"] =
    (ReorderResp.forbidden,
      { users := [],
        profiles :=
          [{ id := "p1", userId := "u1", pageName := "a", displayName := "A",
             bio := "b", profileImageUrl := none, profileViews := 0,
             linkClicks := 0, isDefault := true, createdAt := 0, updatedAt := 0 },
           { id := "p2", userId := "u2", pageName := "c", displayName := "C",
             bio := "b", profileImageUrl := none, profileViews := 0,
             linkClicks := 0, isDefault := true, createdAt := 0, updatedAt := 0 }],
        socialLinks :=
          [{ id := "l1", profileId := "p1", platform := "x", title := "t1",
             url := "u1", description := none, order := 1, isActive := true,
             clicks := 0 },
           { id := "l2", profileId := "p2", platform := "y", title := "t2",
             url := "u2", description := none, order := 1, isActive := true,
             clicks := 0 }],
        themes := [] }) :=
  reorder_rejects_unauthorized _ "u1" ["l1", "l2"]
    (by decide)
    ⟨"l2", by decide,
     { id := "l2", profileId := "p2", platform := "y", title := "t2",
       url := "u2", description := none, order := 1, isActive := true,
       clicks := 0 }, by decide, by decide⟩

/-! Claim C3: reorder assigns order values 1..N in array position order. -/

theorem posIn_eq_none_of_not_mem {lid : String} {l : List String}
    (h : lid ∉ l) : posIn lid l = none := by
  induction l with
  | nil => rfl
  | cons x rest ih =>
    simp only [List.mem_cons, not_or] at h
    have hx : (x == lid) = false := by
      simp only [beq_eq_false_iff_ne, ne_eq]
      exact fun hc => h.1 hc.symm
    rw [posIn, hx]
    simp [ih h.2]

theorem posIn_isSome_of_mem {lid : String} {l : List String}
    (h : lid ∈ l) : (posIn lid l).isSome := by
  induction l with
  | nil => cases h
  | cons x rest ih =>
    rw [posIn]
    by_cases hx : (x == lid) = true
    · simp [hx]
    · rcases List.mem_cons.mp h with rfl | hmem
      · exact absurd (by simp) hx
      · simp only [hx, Bool.false_eq_true, if_false]
        simpa using ih hmem

theorem posIn_some_getElem {lid : String} {l : List String} {k : Nat}
    (h : posIn lid l = some k) : ∃ hk : k < l.length, l[k] = lid := by
  induction l generalizing k with
  | nil => cases h
  | cons x rest ih =>
    rw [posIn] at h
    by_cases hx : (x == lid) = true
    · simp only [hx, if_true] at h
      cases h
      exact ⟨by simp, by simpa using hx⟩
    · simp only [hx, Bool.false_eq_true, if_false] at h
      cases hp : posIn lid rest with
      | none => rw [hp] at h; cases h
      | some k' =>
        rw [hp] at h
        have h' : k' + 1 = k := by simpa using h
        subst h'
        obtain ⟨hk', hget⟩ := ih hp
        exact ⟨by simpa using Nat.succ_lt_succ hk', by simpa using hget⟩

theorem posIn_getElem_of_nodup {l : List String} (hnd : l.Nodup) (k : Nat)
    (hk : k < l.length) : posIn l[k] l = some k := by
  induction l generalizing k with
  | nil => cases hk
  | cons x rest ih =>
    obtain ⟨hx, hndr⟩ := List.nodup_cons.mp hnd
    cases k with
    | zero => simp [posIn]
    | succ k' =>
      have hk' : k' < rest.length := by simpa using hk
      have hmem : rest[k'] ∈ rest := List.getElem_mem hk'
      have hne : (x == rest[k']) = false := by
        simp only [beq_eq_false_iff_ne, ne_eq]
        intro hcon
        rw [hcon] at hx
        exact hx hmem
      simp only [List.getElem_cons_succ]
      rw [posIn, hne]
      simp only [Bool.false_eq_true, if_false]
      rw [ih hndr k' hk']
      rfl

/-- Closed form of the reorder loop for a duplicate-free id list: each row
whose id occurs in the list at 0-based position `k` gets order `i + k + 1`;
every other row is untouched. -/
theorem reorderLoop_eq_map (ids : List String) (hnd : ids.Nodup) :
    ∀ (links : List SocialLink) (i : Nat),
      reorderLoop links ids i = links.map (fun l =>
        match posIn l.id ids with
        | some k => { l with order := (i : Int) + k + 1 }
        | none => l) := by
  induction ids with
  | nil =>
    intro links i
    simp [reorderLoop, posIn]
  | cons lid rest ih =>
    intro links i
    rcases List.nodup_cons.mp hnd with ⟨hlid, hndr⟩
    simp only [reorderLoop]
    rw [ih hndr, updateWhere, List.map_map]
    apply List.map_congr_left
    intro l _
    by_cases hid : lid = l.id
    · have hpred : (l.id == lid) = true := by simp [hid]
      have hnone : posIn l.id rest = none := by
        apply posIn_eq_none_of_not_mem
        rw [← hid]; exact hlid
      simp only [Function.comp, hpred, if_true]
      rw [show posIn l.id (lid :: rest) = some 0 by simp [posIn, hid]]
      simp [hnone]
    · have hpred : (l.id == lid) = false := by
        simp only [beq_eq_false_iff_ne, ne_eq]
        exact fun h => hid h.symm
      have hc : (lid == l.id) = false := by
        simp only [beq_eq_false_iff_ne, ne_eq]
        exact hid
      simp only [Function.comp, hpred, if_false]
      rw [posIn, hc]
      simp only [Bool.false_eq_true, if_false]
      cases hp : posIn l.id rest with
      | none => simp [hp]
      | some k =>
        simp only [hp, Option.map_some]
        have harith : ((i + 1 : Nat) : Int) + k + 1 = (i : Int) + ((k + 1 : Nat) : Int) + 1 := by
          push_cast
          ring
        rw [harith]
        rfl

/-- Reading rows sorted by `order` recovers the id list when every row's
order is one plus its id's position in a duplicate-free id list covering the
rows exactly. -/
theorem sorted_rows_map_id (rows : List SocialLink) (linkIds : List String)
    (hnd : linkIds.Nodup)
    (hpermids : (rows.map (fun l => l.id)).Perm linkIds)
    (hordid : ∀ l ∈ rows,
      l.order = (((posIn l.id linkIds).getD 0 : Nat) : Int) + 1) :
    (rows.mergeSort (fun a b => a.order ≤ b.order)).map (fun l => l.id) = linkIds := by
  have htrans : ∀ a b c : SocialLink, (decide (a.order ≤ b.order)) = true →
      (decide (b.order ≤ c.order)) = true → (decide (a.order ≤ c.order)) = true := by
    intro a b c hab hbc
    simp only [decide_eq_true_eq] at *
    exact le_trans hab hbc
  have htotal : ∀ a b : SocialLink,
      ((decide (a.order ≤ b.order)) || (decide (b.order ≤ a.order))) = true := by
    intro a b
    simp only [Bool.or_eq_true, decide_eq_true_eq]
    exact le_total a.order b.order
  have hsperm : (rows.mergeSort (fun a b => a.order ≤ b.order)).Perm rows :=
    List.mergeSort_perm rows _
  have hssorted : List.Pairwise (fun a b : SocialLink => a.order ≤ b.order)
      (rows.mergeSort (fun a b => a.order ≤ b.order)) := by
    have hp := List.sorted_mergeSort htrans htotal rows
    exact hp.imp (fun h => decide_eq_true_eq.mp h)
  have hmemids : ∀ l ∈ rows, l.id ∈ linkIds := by
    intro l hl
    exact (hpermids.mem_iff).mp (List.mem_map_of_mem _ hl)
  have hroword : rows.map (fun l => l.order) =
      (rows.map (fun l => l.id)).map
        (fun lid => (((posIn lid linkIds).getD 0 : Nat) : Int) + 1) := by
    rw [List.map_map]
    apply List.map_congr_left
    intro l hl
    exact hordid l hl
  have htgt : linkIds.map (fun lid => (((posIn lid linkIds).getD 0 : Nat) : Int) + 1) =
      (List.range linkIds.length).map (fun k : Nat => ((k : Int) + 1 : Int)) := by
    apply List.ext_getElem
    · simp
    · intro n h1 h2
      rw [List.getElem_map, List.getElem_map, List.getElem_range]
      rw [posIn_getElem_of_nodup hnd n (by simpa using h1)]
      rfl
  have hmaporder : (rows.mergeSort (fun a b => a.order ≤ b.order)).map (fun l => l.order) =
      (List.range linkIds.length).map (fun k : Nat => ((k : Int) + 1 : Int)) := by
    apply List.eq_of_perm_of_sorted (r := fun a b : Int => a ≤ b)
    · have hp1 : ((rows.mergeSort (fun a b => a.order ≤ b.order)).map
          (fun l => l.order)).Perm (rows.map (fun l => l.order)) := hsperm.map _
      rw [hroword] at hp1
      have hp2 := hpermids.map (fun lid => (((posIn lid linkIds).getD 0 : Nat) : Int) + 1)
      have hp3 := hp1.trans hp2
      rw [htgt] at hp3
      exact hp3
    · exact List.pairwise_map.mpr hssorted
    · apply List.pairwise_map.mpr
      apply (List.pairwise_lt_range linkIds.length).imp
      intro a b hab
      have hc : (a : Int) < (b : Int) := by exact_mod_cast hab
      omega
  have hlen_s : (rows.mergeSort (fun a b => a.order ≤ b.order)).length = linkIds.length := by
    rw [List.length_mergeSort]
    have hle := hpermids.length_eq
    simpa using hle
  apply List.ext_getElem
  · simpa using hlen_s
  · intro n h1 h2
    have hn : n < (rows.mergeSort (fun a b => a.order ≤ b.order)).length := by
      simpa using h1
    have hlen1 : n < ((rows.mergeSort (fun a b => a.order ≤ b.order)).map
        (fun l => l.order)).length := by
      simpa using hn
    have hordn : (rows.mergeSort (fun a b => a.order ≤ b.order))[n].order = (n : Int) + 1 := by
      have hg := List.getElem_of_eq hmaporder hlen1
      rw [List.getElem_map, List.getElem_map, List.getElem_range] at hg
      exact hg
    have hmem_s : (rows.mergeSort (fun a b => a.order ≤ b.order))[n] ∈ rows :=
      (hsperm.mem_iff).mp (List.getElem_mem hn)
    have hid_mem : (rows.mergeSort (fun a b => a.order ≤ b.order))[n].id ∈ linkIds :=
      hmemids _ hmem_s
    obtain ⟨k0, hk0⟩ := Option.isSome_iff_exists.mp (posIn_isSome_of_mem hid_mem)
    have hord_k0 := hordid _ hmem_s
    simp only [hk0, Option.getD_some] at hord_k0
    have hk0n : k0 = n := by
      rw [hordn] at hord_k0
      have hcast : (k0 : Int) = (n : Int) := by omega
      exact_mod_cast hcast
    subst hk0n
    obtain ⟨hklt, hkget⟩ := posIn_some_getElem hk0
    rw [List.getElem_map]
    exact hkget.symm

/-- C3: for a non-empty duplicate-free id list that covers exactly the links
of profile `pid` (each listed id is one of the profile's links and vice
versa), `reorderSocialLinks` assigns the link at 0-based array position `k`
the order value `k + 1` (order values 1..N in input order), so the ordered
read `getSocialLinks` afterwards returns the links exactly in the input
array's order. -/
theorem reorder_assigns_sequential_orders (db : DB) (pid : String)
    (linkIds : List String) (hne : linkIds ≠ []) (hnd : linkIds.Nodup)
    (hperm : ((db.socialLinks.filter (fun l => l.profileId == pid)).map
      (fun l => l.id)).Perm linkIds) :
    (∀ k (hk : k < linkIds.length),
      ∃ l' ∈ (reorderSocialLinks db linkIds).socialLinks,
        l'.id = linkIds[k] ∧ l'.order = (k : Int) + 1) ∧
    (getSocialLinks (reorderSocialLinks db linkIds) pid).map (fun l => l.id) = linkIds := by
  set Phi : SocialLink → SocialLink := fun l =>
    match posIn l.id linkIds with
    | some k => { l with order := ((0 : Nat) : Int) + k + 1 }
    | none => l with hPhidef
  have hmapall : (reorderSocialLinks db linkIds).socialLinks = db.socialLinks.map Phi := by
    show reorderLoop db.socialLinks linkIds 0 = _
    rw [hPhidef]
    exact reorderLoop_eq_map linkIds hnd db.socialLinks 0
  have hidl : ∀ l, (Phi l).id = l.id := by
    intro l
    rw [hPhidef]
    cases hp : posIn l.id linkIds <;> simp [hp]
  have hprofl : ∀ l, (Phi l).profileId = l.profileId := by
    intro l
    rw [hPhidef]
    cases hp : posIn l.id linkIds <;> simp [hp]
  have horderl : ∀ l k, posIn l.id linkIds = some k →
      (Phi l).order = ((0 : Nat) : Int) + k + 1 := by
    intro l k hk
    rw [hPhidef]
    simp [hk]
  constructor
  · intro k hk
    have hmem : linkIds[k] ∈ linkIds := List.getElem_mem hk
    have hmem2 : linkIds[k] ∈ (db.socialLinks.filter
        (fun l => l.profileId == pid)).map (fun l => l.id) := (hperm.mem_iff).mpr hmem
    obtain ⟨l0, hl0f, hl0id⟩ := List.mem_map.mp hmem2
    have hl0 : l0 ∈ db.socialLinks := (List.mem_filter.mp hl0f).1
    have hpos : posIn l0.id linkIds = some k := by
      rw [hl0id]
      exact posIn_getElem_of_nodup hnd k hk
    refine ⟨Phi l0, ?_, ?_, ?_⟩
    · rw [hmapall]
      exact List.mem_map_of_mem Phi hl0
    · rw [hidl l0]
      exact hl0id
    · rw [horderl l0 k hpos]
      omega
  · have hA : (reorderSocialLinks db linkIds).socialLinks.filter
        (fun l => l.profileId == pid) =
        (db.socialLinks.filter (fun l => l.profileId == pid)).map Phi := by
      rw [hmapall, List.filter_map]
      congr 1
      apply List.filter_congr
      intro x _
      simp only [Function.comp]
      rw [hprofl x]
    rw [getSocialLinks, hA]
    apply sorted_rows_map_id _ _ hnd
    · have hids_eq : ((db.socialLinks.filter (fun l => l.profileId == pid)).map Phi).map
          (fun l => l.id) =
          (db.socialLinks.filter (fun l => l.profileId == pid)).map (fun l => l.id) := by
        rw [List.map_map]
        apply List.map_congr_left
        intro l _
        exact hidl l
      rw [hids_eq]
      exact hperm
    · intro l' hl'
      obtain ⟨l0, hl0, rfl⟩ := List.mem_map.mp hl'
      have hidmem : l0.id ∈ linkIds := (hperm.mem_iff).mp (List.mem_map_of_mem _ hl0)
      obtain ⟨k0, hk0⟩ := Option.isSome_iff_exists.mp (posIn_isSome_of_mem hidmem)
      rw [horderl l0 k0 hk0, hidl l0, hk0, Option.getD_some]
      omega

/-- Witness for C3: reordering profile `p1`'s two links as `[l2, l1]` puts
orders `1, 2` on them and the ordered read returns ids `[l2, l1]`. -/
theorem reorder_assigns_sequential_orders_witness :
    (∃ l' ∈ (reorderSocialLinks
      { users := [], profiles := [],
        socialLinks :=
          [{ id := "l1", profileId := "p1", platform := "x", title := "t1",
             url := "u1", description := none, order := 1, isActive := true,
             clicks := 0 },
           { id := "l2", profileId := "p1", platform := "y", title := "t2",
             url := "u2", description := none, order := 2, isActive := true,
             clicks := 0 }],
        themes := [] } ["l2", "l1"]).socialLinks,
      l'.id = "l2" ∧ l'.order = (0 : Int) + 1) ∧
    (getSocialLinks (reorderSocialLinks
      { users := [], profiles := [],
        socialLinks :=
          [{ id := "l1", profileId := "p1", platform := "x", title := "t1",
             url := "u1", description := none, order := 1, isActive := true,
             clicks := 0 },
           { id := "l2", profileId := "p1", platform := "y", title := "t2",
             url := "u2", description := none, order := 2, isActive := true,
             clicks := 0 }],
        themes := [] } ["l2", "l1"]) "p1").map (fun l => l.id) = ["l2", "l1"] := by
  have h := reorder_assigns_sequential_orders
    { users := [], profiles := [],
      socialLinks :=
        [{ id := "l1", profileId := "p1", platform := "x", title := "t1",
           url := "u1", description := none, order := 1, isActive := true,
           clicks := 0 },
         { id := "l2", profileId := "p1", platform := "y", title := "t2",
           url := "u2", description := none, order := 2, isActive := true,
           clicks := 0 }],
      themes := [] } "p1" ["l2", "l1"] (by decide) (by decide) (by decide)
  exact ⟨h.1 0 (by decide), h.2⟩

/-! Claim C5: verify-email orders profile creation before token clearing. -/

/-- C5: for a request whose token matches an unexpired verification token of
a user without a default profile: when the profile insert fails the whole
verification fails with a 500 and the database is returned exactly as it was
(the user row still unverified, the token still set and hence valid for a
retry); when the insert succeeds, the event trace shows the profile creation
strictly before the token-clearing update. -/
theorem verify_email_ordering (db : DB) (tok : String) (now : Int)
    (newId : String) (gravatar : Option String) (u : User)
    (hu : getUserByVerificationToken db tok = some u)
    (hexp : ∀ e, u.emailVerificationExpires = some e → ¬(e < now))
    (hnoprof : getDefaultProfileByUserId db u.id = none) :
    (verifyEmailHandler db (some tok) now newId gravatar true =
      (VerifyResp.serverError, db, [])) ∧
    (∃ pid pn,
      (verifyEmailHandler db (some tok) now newId gravatar false).2.2 =
        [VerifyEvent.profileCreated pid, VerifyEvent.welcomeEmailSent u.email pn,
         VerifyEvent.tokenCleared u.id] ∧
      (verifyEmailHandler db (some tok) now newId gravatar false).1 = VerifyResp.ok) := by
  have hexp' : (match u.emailVerificationExpires with
      | some e => decide (e < now)
      | none => false) = false := by
    cases he : u.emailVerificationExpires with
    | none => rfl
    | some e => simpa using hexp e he
  constructor
  · rw [verifyEmailHandler, hu]
    simp only [hexp', Bool.false_eq_true, if_false, hnoprof]
    rw [if_pos trivial]
  · rw [verifyEmailHandler, hu]
    simp only [hexp', Bool.false_eq_true, if_false, hnoprof]
    exact ⟨_, _, rfl, trivial⟩

/-- Witness for C5 at a concrete user awaiting verification. -/
theorem verify_email_ordering_witness :
    (verifyEmailHandler
      { users := [{ id := "u1", email := "ann@x.com", password := some "h",
                    firstName := none, lastName := none, profileImageUrl := none,
                    isEmailVerified := false, emailVerificationToken := some "tok1",
                    emailVerificationExpires := none, passwordResetToken := none,
                    passwordResetExpires := none, isAdmin := false,
                    createdAt := 0, updatedAt := 0 }],
        profiles := [], socialLinks := [], themes := [] }
      (some "tok1") 0 "np1" none true =
      (VerifyResp.serverError,
       { users := [{ id := "u1", email := "ann@x.com", password := some "h",
                     firstName := none, lastName := none, profileImageUrl := none,
                     isEmailVerified := false, emailVerificationToken := some "tok1",
                     emailVerificationExpires := none, passwordResetToken := none,
                     passwordResetExpires := none, isAdmin := false,
                     createdAt := 0, updatedAt := 0 }],
         profiles := [], socialLinks := [], themes := [] }, [])) ∧
    (∃ pid pn,
      (verifyEmailHandler
        { users := [{ id := "u1", email := "ann@x.com", password := some "h",
                      firstName := none, lastName := none, profileImageUrl := none,
                      isEmailVerified := false, emailVerificationToken := some "tok1",
                      emailVerificationExpires := none, passwordResetToken := none,
                      passwordResetExpires := none, isAdmin := false,
                      createdAt := 0, updatedAt := 0 }],
          profiles := [], socialLinks := [], themes := [] }
        (some "tok1") 0 "np1" none false).2.2 =
        [VerifyEvent.profileCreated pid, VerifyEvent.welcomeEmailSent "ann@x.com" pn,
         VerifyEvent.tokenCleared "u1"] ∧
      (verifyEmailHandler
        { users := [{ id := "u1", email := "ann@x.com", password := some "h",
                      firstName := none, lastName := none, profileImageUrl := none,
                      isEmailVerified := false, emailVerificationToken := some "tok1",
                      emailVerificationExpires := none, passwordResetToken := none,
                      passwordResetExpires := none, isAdmin := false,
                      createdAt := 0, updatedAt := 0 }],
          profiles := [], socialLinks := [], themes := [] }
        (some "tok1") 0 "np1" none false).1 = VerifyResp.ok) :=
  verify_email_ordering _ "tok1" 0 "np1" none
    { id := "u1", email := "ann@x.com", password := some "h",
      firstName := none, lastName := none, profileImageUrl := none,
      isEmailVerified := false, emailVerificationToken := some "tok1",
      emailVerificationExpires := none, passwordResetToken := none,
      passwordResetExpires := none, isAdmin := false,
      createdAt := 0, updatedAt := 0 }
    (by decide) (by intro e he; cases he) (by decide)

/-! Claim C7: password stripping across the admin surface. -/

/-- C7 (code bug): `GET /api/admin/stats` selects the recent-user rows with a
bare `db.select().from(users)` and places them in the response without the
`password: undefined` mapping the other handlers apply, so the stored
password digest is sent to the client; the list-users, toggle-admin and
impersonate responses do strip it.  Evaluated at a database holding one
user created within the 7-day window whose password digest is set. -/
theorem stats_recentUsers_keep_password :
    ((statsHandler
      { users := [{ id := "u1", email := "a@x.com", password := some "bcrypt-digest",
                    firstName := none, lastName := none, profileImageUrl := none,
                    isEmailVerified := true, emailVerificationToken := none,
                    emailVerificationExpires := none, passwordResetToken := none,
                    passwordResetExpires := none, isAdmin := false,
                    createdAt := 0, updatedAt := 0 }],
        profiles := [], socialLinks := [], themes := [] } 0).recentUsers.map
      (fun u => u.password)) = [some "bcrypt-digest"] ∧
    ((listUsersHandler
      { users := [{ id := "u1", email := "a@x.com", password := some "bcrypt-digest",
                    firstName := none, lastName := none, profileImageUrl := none,
                    isEmailVerified := true, emailVerificationToken := none,
                    emailVerificationExpires := none, passwordResetToken := none,
                    passwordResetExpires := none, isAdmin := false,
                    createdAt := 0, updatedAt := 0 }],
        profiles := [], socialLinks := [], themes := [] } 1 20 "" "all" "createdAt"
      "desc").map (fun u => u.password)) = [none] ∧
    ((toggleAdminHandler
      { users := [{ id := "u1", email := "a@x.com", password := some "bcrypt-digest",
                    firstName := none, lastName := none, profileImageUrl := none,
                    isEmailVerified := true, emailVerificationToken := none,
                    emailVerificationExpires := none, passwordResetToken := none,
                    passwordResetExpires := none, isAdmin := false,
                    createdAt := 0, updatedAt := 0 }],
        profiles := [], socialLinks := [], themes := [] } "adm" "u1" true 1).2.2.map
      (fun u => u.password)) = some none ∧
    ((impersonateHandler
      { users := [{ id := "u1", email := "a@x.com", password := some "bcrypt-digest",
                    firstName := none, lastName := none, profileImageUrl := none,
                    isEmailVerified := true, emailVerificationToken := none,
                    emailVerificationExpires := none, passwordResetToken := none,
                    passwordResetExpires := none, isAdmin := false,
                    createdAt := 0, updatedAt := 0 }],
        profiles := [], socialLinks := [], themes := [] }
      { userId := some "adm", originalAdminId := none, isImpersonating := false }
      "adm" "u1").2.2.map (fun u => u.password)) = some none := by
  refine ⟨?_, ?_, ?_, ?_⟩
  · simp [statsHandler, List.mergeSort_singleton]
  · simp [listUsersHandler, userSearchMatch, userFilterMatch, List.mergeSort_singleton,
      stripPassword]
  · decide
  · decide

/-! Claim C6: page-name allocation during email verification. -/

theorem toDigitsCore_eq_digits (fuel : Nat) :
    ∀ (n : Nat) (ds : List Char), 0 < n → n ≤ fuel →
      Nat.toDigitsCore 10 fuel n ds =
        ((Nat.digits 10 n).map Nat.digitChar).reverse ++ ds := by
  induction fuel with
  | zero => intro n ds h0 hf; omega
  | succ fuel ih =>
    intro n ds h0 hf
    rw [Nat.toDigitsCore]
    have hdig : Nat.digits 10 n = n % 10 :: Nat.digits 10 (n / 10) :=
      Nat.digits_def' (by norm_num) h0
    by_cases hz : n / 10 = 0
    · simp only [hz, if_true]
      rw [hdig, hz]
      simp
    · simp only [hz, if_false]
      have h0' : 0 < n / 10 := Nat.pos_of_ne_zero hz
      have hlt : n / 10 < n := Nat.div_lt_self h0 (by norm_num)
      rw [ih (n / 10) _ h0' (by omega), hdig]
      simp

theorem repr_eq_digits (n : Nat) (h0 : 0 < n) :
    Nat.repr n = (((Nat.digits 10 n).map Nat.digitChar).reverse).asString := by
  show (Nat.toDigitsCore 10 (n + 1) n []).asString = _
  rw [toDigitsCore_eq_digits (n + 1) n [] h0 (by omega)]
  simp

theorem digitChar_inj_below : ∀ a < 10, ∀ b < 10,
    Nat.digitChar a = Nat.digitChar b → a = b := by decide

theorem map_digitChar_inj : ∀ (l₁ l₂ : List Nat), (∀ x ∈ l₁, x < 10) →
    (∀ x ∈ l₂, x < 10) → l₁.map Nat.digitChar = l₂.map Nat.digitChar → l₁ = l₂ := by
  intro l₁
  induction l₁ with
  | nil =>
    intro l₂ _ _ h
    cases l₂ with
    | nil => rfl
    | cons b l₂' => simp at h
  | cons a l ih =>
    intro l₂ h1 h2 h
    cases l₂ with
    | nil => simp at h
    | cons b l₂' =>
      simp only [List.map_cons, List.cons.injEq] at h
      have hab : a = b := digitChar_inj_below a
        (h1 a (List.mem_cons_self a l)) b (h2 b (List.mem_cons_self b l₂')) h.1
      subst hab
      rw [ih l₂' (fun x hx => h1 x (List.mem_cons_of_mem a hx))
        (fun x hx => h2 x (List.mem_cons_of_mem a hx)) h.2]

theorem repr_injective : ∀ m n : Nat, Nat.repr m = Nat.repr n → m = n := by
  have key : ∀ n : Nat, 0 < n → Nat.repr n ≠ "0" := by
    intro n hn hcon
    rw [repr_eq_digits n hn] at hcon
    have hdata : ((Nat.digits 10 n).map Nat.digitChar).reverse = ['0'] := by
      have : ((Nat.digits 10 n).map Nat.digitChar).reverse.asString = (['0'] : List Char).asString := hcon
      exact List.asString_inj.mp this
    have hmap : (Nat.digits 10 n).map Nat.digitChar = ['0'] := by
      have := congrArg List.reverse hdata
      simpa using this
    obtain ⟨d, hd⟩ := List.length_eq_one.mp
      (by rw [← List.length_map (Nat.digits 10 n) Nat.digitChar, hmap]; rfl)
    rw [hd] at hmap
    simp only [List.map_cons, List.map_nil, List.cons.injEq] at hmap
    have hdlt : d < 10 := Nat.digits_lt_base (by norm_num) (by rw [hd]; exact List.mem_cons_self d [])
    have hd0 : d = 0 := digitChar_inj_below d hdlt 0 (by norm_num) hmap.1
    have hn0 := congrArg (Nat.ofDigits 10) hd
    rw [Nat.ofDigits_digits] at hn0
    rw [hd0] at hn0
    simp [Nat.ofDigits] at hn0
    omega
  intro m n h
  rcases Nat.eq_zero_or_pos m with hm | hm
  · rcases Nat.eq_zero_or_pos n with hn | hn
    · omega
    · subst hm
      exact absurd h.symm (key n hn)
  · rcases Nat.eq_zero_or_pos n with hn | hn
    · subst hn
      exact absurd h (key m hm)
    · rw [repr_eq_digits m hm, repr_eq_digits n hn] at h
      have hrev := List.asString_inj.mp h
      have hmap := List.reverse_injective hrev
      have hdig := map_digitChar_inj (Nat.digits 10 m) (Nat.digits 10 n)
        (fun x hx => Nat.digits_lt_base (by norm_num) hx)
        (fun x hx => Nat.digits_lt_base (by norm_num) hx) hmap
      have := congrArg (Nat.ofDigits 10) hdig
      rwa [Nat.ofDigits_digits, Nat.ofDigits_digits] at this

theorem repr_ne_empty (n : Nat) : Nat.repr n ≠ "" := by
  rcases Nat.eq_zero_or_pos n with hn | hn
  · subst hn
    intro h
    exact absurd (show ("0" : String) = "" from h) (by decide)
  · intro h
    rw [repr_eq_digits n hn] at h
    have : ((Nat.digits 10 n).map Nat.digitChar).reverse = [] := by
      have h2 : ((Nat.digits 10 n).map Nat.digitChar).reverse.asString =
          ([] : List Char).asString := h
      exact List.asString_inj.mp h2
    have hnil : Nat.digits 10 n = [] := by simpa using this
    exact absurd hnil (Nat.digits_ne_nil_iff_ne_zero.mpr (Nat.pos_iff_ne_zero.mp hn))

theorem string_append_left_cancel {a x y : String} (h : a ++ x = a ++ y) : x = y := by
  apply String.ext
  have hd := congrArg String.data h
  rw [String.data_append, String.data_append] at hd
  exact List.append_cancel_left hd

theorem allocCandidate_inj (base : String) :
    Function.Injective (allocCandidate base) := by
  intro j k h
  cases j with
  | zero =>
    cases k with
    | zero => rfl
    | succ k' =>
      exfalso
      rw [allocCandidate, allocCandidate] at h
      have : "" = Nat.repr (k' + 1) :=
        string_append_left_cancel (by rw [String.append_empty]; exact h)
      exact repr_ne_empty (k' + 1) this.symm
  | succ j' =>
    cases k with
    | zero =>
      exfalso
      rw [allocCandidate, allocCandidate] at h
      have : Nat.repr (j' + 1) = "" :=
        string_append_left_cancel (by rw [String.append_empty]; exact h)
      exact repr_ne_empty (j' + 1) this
    | succ k' =>
      rw [allocCandidate, allocCandidate] at h
      have := repr_injective (j' + 1) (k' + 1) (string_append_left_cancel h)
      omega

theorem allocLoop_free (db : DB) (base : String) :
    ∀ (fuel j : Nat),
      (∃ k, k < fuel ∧ getProfileByPageName db (allocCandidate base (j + k)) = none) →
      getProfileByPageName db (allocLoop db base fuel (allocCandidate base j) (j + 1)) = none := by
  intro fuel
  induction fuel with
  | zero =>
    intro j hex
    obtain ⟨k, hk, _⟩ := hex
    omega
  | succ fuel ih =>
    intro j hex
    obtain ⟨k, hk, hfree⟩ := hex
    simp only [allocLoop]
    by_cases hcur : (getProfileByPageName db (allocCandidate base j)).isSome
    · simp only [hcur, if_true]
      have hk0 : k ≠ 0 := by
        intro h0
        subst h0
        rw [Nat.add_zero] at hfree
        rw [hfree] at hcur
        simp at hcur
      obtain ⟨k', rfl⟩ := Nat.exists_eq_succ_of_ne_zero hk0
      have hnext : base ++ Nat.repr (j + 1) = allocCandidate base (j + 1) := rfl
      rw [hnext]
      exact ih (j + 1) ⟨k', by omega, by
        rw [show j + 1 + k' = j + (k' + 1) by omega]
        exact hfree⟩
    · simp only [hcur, Bool.false_eq_true, if_false]
      exact Option.not_isSome_iff_eq_none.mp hcur

/-- The allocation loop always terminates on a globally unused page name:
with one probe per existing profile plus one, the pairwise-distinct
candidates `base`, `base1`, `base2`, ... cannot all be taken. -/
theorem allocatePageName_fresh (db : DB) (base : String) :
    getProfileByPageName db (allocatePageName db base) = none := by
  have hfree : ∃ k, k < db.profiles.length + 1 ∧
      getProfileByPageName db (allocCandidate base k) = none := by
    by_contra hcon
    push_neg at hcon
    have hmem : ∀ k < db.profiles.length + 1,
        allocCandidate base k ∈ db.profiles.map (fun p => p.pageName) := by
      intro k hk
      have hne := hcon k hk
      cases ho : getProfileByPageName db (allocCandidate base k) with
      | none => exact absurd ho hne
      | some p =>
        have hpmem : p ∈ db.profiles := List.mem_of_find?_eq_some ho
        have hpn : p.pageName = allocCandidate base k := by
          have := List.find?_some ho
          simpa using this
        exact hpn ▸ List.mem_map_of_mem _ hpmem
    have hnd : ((List.range (db.profiles.length + 1)).map (allocCandidate base)).Nodup :=
      (List.nodup_range (db.profiles.length + 1)).map (allocCandidate_inj base)
    have hsub : ((List.range (db.profiles.length + 1)).map (allocCandidate base)).toFinset ⊆
        (db.profiles.map (fun p => p.pageName)).toFinset := by
      intro x hx
      rw [List.mem_toFinset] at hx ⊢
      obtain ⟨k, hkr, rfl⟩ := List.mem_map.mp hx
      exact hmem k (by simpa using List.mem_range.mp hkr)
    have hcard := Finset.card_le_card hsub
    rw [List.toFinset_card_of_nodup hnd] at hcard
    have hub := (db.profiles.map (fun p => p.pageName)).toFinset_card_le
    rw [List.length_map, List.length_range] at hcard
    rw [List.length_map] at hub
    omega
  obtain ⟨k, hk, hfreek⟩ := hfree
  rw [allocatePageName]
  have := allocLoop_free db base (db.profiles.length + 1) 0
    ⟨k, hk, by simpa using hfreek⟩
  simpa [allocCandidate] using this

/-- Shape of the database after a verification that creates the first
profile: exactly one profile row is appended, carrying the generated id and
the page name chosen by the allocation logic (loop result, or the synthetic
fallback when the loop result is empty). -/
theorem verify_email_created_profile (db : DB) (tok : String) (now : Int)
    (newId : String) (gravatar : Option String) (u : User)
    (hu : getUserByVerificationToken db tok = some u)
    (hexp : ∀ e, u.emailVerificationExpires = some e → ¬(e < now))
    (hnoprof : getDefaultProfileByUserId db u.id = none) :
    ∃ p : Profile,
      (verifyEmailHandler db (some tok) now newId gravatar false).2.1.profiles =
        db.profiles ++ [p] ∧ p.id = newId ∧
      p.pageName = allocatedPageName db u := by
  have hexp' : (match u.emailVerificationExpires with
      | some e => decide (e < now)
      | none => false) = false := by
    cases he : u.emailVerificationExpires with
    | none => rfl
    | some e => simpa using hexp e he
  rw [verifyEmailHandler, hu]
  simp only [hexp', Bool.false_eq_true, if_false, hnoprof]
  exact ⟨_, rfl, rfl, rfl⟩

/-- C6 counterexample: with email `!!!@x.com` the local part strips to the
empty slug, the suffix loop finds the empty candidate free and stops at
once, and the synthetic fallback `user` plus the id's trailing 8 characters
is substituted with no uniqueness re-check; with a user id ending in
`abcd1234` while another user's profile already holds the page name
`userabcd1234`, the allocated name equals that existing profile's pageName —
refuting the claim that the allocated name always differs from every
existing pageName at allocation time.  Because `page_name` is UNIQUE, the
insert of that name deterministically raises, so the faithful run is the
`createFails = true` one: verification answers 500 and the database — hence
the user's still-set verification token — is unchanged. -/
theorem pageName_allocation_collision :
    getUserByVerificationToken collisionDB "t" = some collisionUser ∧
    allocatedPageName collisionDB collisionUser = "userabcd1234" ∧
    (∃ p ∈ collisionDB.profiles, p.pageName = "userabcd1234") ∧
    (verifyEmailHandler collisionDB (some "t") 0 "newid" none true).1 =
      VerifyResp.serverError ∧
    (verifyEmailHandler collisionDB (some "t") 0 "newid" none true).2.1 =
      collisionDB := by
  refine ⟨by decide, by decide, ?_, by decide, by decide⟩
  exact ⟨{ id := "p2", userId := "u2", pageName := "userabcd1234",
           displayName := "Other", bio := "b", profileImageUrl := none,
           profileViews := 0, linkClicks := 0, isDefault := true,
           createdAt := 0, updatedAt := 0 }, by decide, by decide⟩

/-- C6 (amended): during verification the page name is allocated as the slug
of the email local part (character-wise lowercase, everything but `a-z0-9-_`
stripped) probed with an incrementing numeric suffix until no existing
profile uses it.  When the loop result is non-empty it is the allocated
name, it differs from every existing profile's pageName at allocation time,
and the run persists exactly one new profile carrying it (a fresh name
cannot violate the unique page-name constraint, so `createFails = false` is
the faithful oracle in this branch).  When the loop result is empty the
allocated name is the synthetic fallback (`user` plus the user id's trailing
8 characters), substituted after the loop without a uniqueness re-check. -/
theorem verify_email_pageName_allocation (db : DB) (tok : String) (now : Int)
    (newId : String) (gravatar : Option String) (u : User)
    (hu : getUserByVerificationToken db tok = some u)
    (hexp : ∀ e, u.emailVerificationExpires = some e → ¬(e < now))
    (hnoprof : getDefaultProfileByUserId db u.id = none) :
    (allocatePageName db (slugify (emailLocalPart u.email)) ≠ "" →
      allocatedPageName db u = allocatePageName db (slugify (emailLocalPart u.email)) ∧
      getProfileByPageName db (allocatedPageName db u) = none ∧
      ∃ p : Profile,
        (verifyEmailHandler db (some tok) now newId gravatar false).2.1.profiles =
          db.profiles ++ [p] ∧ p.id = newId ∧ p.pageName = allocatedPageName db u) ∧
    (allocatePageName db (slugify (emailLocalPart u.email)) = "" →
      allocatedPageName db u = fallbackPageName u) := by
  constructor
  · intro hne'
    have hcond : (allocatePageName db (slugify (emailLocalPart u.email)) == "") = false := by
      simpa using hne'
    have hall : allocatedPageName db u =
        allocatePageName db (slugify (emailLocalPart u.email)) := by
      show (if (allocatePageName db (slugify (emailLocalPart u.email)) == "")
          then fallbackPageName u
          else allocatePageName db (slugify (emailLocalPart u.email))) =
        allocatePageName db (slugify (emailLocalPart u.email))
      simp [hcond]
    refine ⟨hall, ?_, ?_⟩
    · rw [hall]
      exact allocatePageName_fresh db (slugify (emailLocalPart u.email))
    · exact verify_email_created_profile db tok now newId gravatar u hu hexp hnoprof
  · intro heq
    show (if (allocatePageName db (slugify (emailLocalPart u.email)) == "")
        then fallbackPageName u
        else allocatePageName db (slugify (emailLocalPart u.email))) = fallbackPageName u
    simp [heq]

/-- Witness for the amended C6: `annUser` (email `Ann@x.com`, no default
profile) verifying against `annDB`, where `ann` is already taken. -/
theorem verify_email_pageName_allocation_witness :
    (allocatePageName annDB (slugify (emailLocalPart annUser.email)) ≠ "" →
      allocatedPageName annDB annUser =
        allocatePageName annDB (slugify (emailLocalPart annUser.email)) ∧
      getProfileByPageName annDB (allocatedPageName annDB annUser) = none ∧
      ∃ p : Profile,
        (verifyEmailHandler annDB (some "t") 0 "newid" none false).2.1.profiles =
          annDB.profiles ++ [p] ∧ p.id = "newid" ∧
        p.pageName = allocatedPageName annDB annUser) ∧
    (allocatePageName annDB (slugify (emailLocalPart annUser.email)) = "" →
      allocatedPageName annDB annUser = fallbackPageName annUser) :=
  verify_email_pageName_allocation annDB "t" 0 "newid" none annUser
    (by decide) (by intro e he; simp [annUser] at he) (by decide)

/-! Claim C1: the default-page invariant. -/

theorem countP_ite_split (p a b : α → Bool) (l : List α) :
    l.countP (fun x => if p x then a x else b x) =
      l.countP (fun x => p x && a x) + l.countP (fun x => !(p x) && b x) := by
  induction l with
  | nil => simp
  | cons x l ih =>
    simp only [List.countP_cons, ih]
    by_cases hp : p x
    · by_cases ha : a x <;> simp [hp, ha] <;> omega
    · by_cases hb : b x <;> simp [hp, hb] <;> omega

theorem countP_split (p q : α → Bool) (l : List α) :
    l.countP q = l.countP (fun x => p x && q x) + l.countP (fun x => !(p x) && q x) := by
  have h := countP_ite_split p q q l
  have h2 : l.countP (fun x => if p x then q x else q x) = l.countP q := by
    apply List.countP_congr
    intro x _
    by_cases hp : p x <;> simp [hp]
  omega

/-- Closed form of `setDefaultBioPage`'s transactional double update. -/
theorem setDefault_profiles_map (db : DB) (id userId : String) (now : Int) :
    updateWhere (fun p => p.id == id && p.userId == userId)
      (fun p => { p with isDefault := true, updatedAt := now })
      (updateWhere (fun p => p.userId == userId)
        (fun p => { p with isDefault := false, updatedAt := now }) db.profiles) =
    db.profiles.map (fun p =>
      if p.id == id && p.userId == userId then { p with isDefault := true, updatedAt := now }
      else if p.userId == userId then { p with isDefault := false, updatedAt := now }
      else p) := by
  simp only [updateWhere, List.map_map]
  apply List.map_congr_left
  intro p _
  by_cases hu : p.userId == userId
  · by_cases hi : p.id == id <;> simp [Function.comp, hu, hi]
  · have hi : (p.id == id && p.userId == userId) = false := by simp [hu]
    simp [Function.comp, hu, hi]

/-- `createBioPage` preserves unique profile ids (the database generates a
fresh id) and the default-page invariant: a user's first page arrives marked
default, any later page arrives non-default. -/
theorem createBioPage_inv (db : DB) (userId : String) (pd : CreateBioPage)
    (gravatar : Option String) (newId : String) (now : Int)
    (hfresh : ∀ p ∈ db.profiles, p.id ≠ newId)
    (hnd : (db.profiles.map (fun p => p.id)).Nodup)
    (hinv : defaultInvariant db) :
    ((createBioPage db userId pd gravatar newId now).1.profiles.map
      (fun p => p.id)).Nodup ∧
    defaultInvariant (createBioPage db userId pd gravatar newId now).1 := by
  have hlen : (getProfilesByUserId db userId).length = pageCount db userId := by
    rw [getProfilesByUserId, List.length_mergeSort, pageCount,
      List.countP_eq_length_filter]
  have hprofiles : (createBioPage db userId pd gravatar newId now).1.profiles =
      db.profiles ++ [(createBioPage db userId pd gravatar newId now).2] := rfl
  have hpid : (createBioPage db userId pd gravatar newId now).2.id = newId := rfl
  have hpuid : (createBioPage db userId pd gravatar newId now).2.userId = userId := rfl
  have hpdef : (createBioPage db userId pd gravatar newId now).2.isDefault =
      ((getProfilesByUserId db userId).length == 0) := rfl
  constructor
  · rw [hprofiles, List.map_append]
    rw [List.nodup_append]
    refine ⟨hnd, by simp, ?_⟩
    intro x hx
    simp only [List.map_cons, List.map_nil, List.mem_singleton, hpid]
    obtain ⟨q, hq, rfl⟩ := List.mem_map.mp hx
    exact fun hc => hfresh q hq (by simpa using hc)
  · intro uid hpc
    rw [pageCount, hprofiles, List.countP_append] at hpc
    rw [defaultCount, hprofiles, List.countP_append]
    by_cases huid : userId = uid
    · subst huid
      by_cases hfirst : pageCount db userId = 0
      · have hdef0 : defaultCount db userId = 0 := by
          have hle : defaultCount db userId ≤ pageCount db userId := by
            apply List.countP_mono_left
            intro x _ hx
            exact (Bool.and_eq_true ..).mp hx |>.1
          omega
        have hd : (createBioPage db userId pd gravatar newId now).2.isDefault = true := by
          rw [hpdef, hlen]
          simp [hfirst]
        rw [defaultCount] at hdef0
        rw [hdef0]
        simp [List.countP_cons, hd, hpuid]
      · have hd : (createBioPage db userId pd gravatar newId now).2.isDefault = false := by
          rw [hpdef, hlen]
          simp [hfirst]
        have h1 : defaultCount db userId = 1 :=
          hinv userId (Nat.pos_of_ne_zero hfirst)
        rw [defaultCount] at h1
        rw [h1]
        simp [List.countP_cons, hd]
    · have hnew : ((createBioPage db userId pd gravatar newId now).2.userId == uid) = false := by
        rw [hpuid]
        simp [huid]
      have hc0 : List.countP (fun p => p.userId == uid)
          [(createBioPage db userId pd gravatar newId now).2] = 0 := by
        simp [List.countP_cons, hnew]
      have hc0d : List.countP (fun p => p.userId == uid && p.isDefault)
          [(createBioPage db userId pd gravatar newId now).2] = 0 := by
        simp [List.countP_cons, hnew]
      rw [hc0] at hpc
      rw [hc0d]
      have := hinv uid (by rw [pageCount]; omega)
      rw [defaultCount] at this
      omega

/-- A successful `setDefaultBioPage` preserves unique profile ids and leaves
the user with exactly one default page (the target), while not touching any
other user's pages. -/
theorem setDefaultBioPage_inv (db : DB) (id userId : String) (now : Int) (db' : DB)
    (h : setDefaultBioPage db id userId now = Except.ok db')
    (hnd : (db.profiles.map (fun p => p.id)).Nodup)
    (hinv : defaultInvariant db) :
    (db'.profiles.map (fun p => p.id)).Nodup ∧ defaultInvariant db' := by
  set g : Profile → Profile := fun p =>
    if p.id == id && p.userId == userId then { p with isDefault := true, updatedAt := now }
    else if p.userId == userId then { p with isDefault := false, updatedAt := now }
    else p with hgdef
  have hgid : ∀ p, (g p).id = p.id := by
    intro p
    rw [hgdef]
    by_cases h1 : p.id == id && p.userId == userId
    · simp [h1]
    · by_cases h2 : p.userId == userId <;> simp [h1, h2] <;> try (split <;> rfl)
  have hguid : ∀ p, (g p).userId = p.userId := by
    intro p
    rw [hgdef]
    by_cases h1 : p.id == id && p.userId == userId
    · simp [h1]
    · by_cases h2 : p.userId == userId <;> simp [h1, h2] <;> try (split <;> rfl)
  rw [setDefaultBioPage] at h
  rw [setDefault_profiles_map db id userId now] at h
  by_cases hc : ((db.profiles.map g).filter
      (fun p => p.id == id && p.userId == userId)).length == 0
  · rw [if_pos hc] at h
    cases h
  · rw [if_neg hc] at h
    have hdb' : db'.profiles = db.profiles.map g := by
      cases h
      rfl
    have hex : ∃ p0 ∈ db.profiles, p0.id = id ∧ p0.userId = userId := by
      have hlen : ((db.profiles.map g).filter
          (fun p => p.id == id && p.userId == userId)).length ≠ 0 := by
        simpa using hc
      have hne : (db.profiles.map g).filter
          (fun p => p.id == id && p.userId == userId) ≠ [] := by
        intro hnil
        rw [hnil] at hlen
        simp at hlen
      obtain ⟨x, hx⟩ := List.exists_mem_of_ne_nil _ hne
      have hx' := List.mem_filter.mp hx
      obtain ⟨p0, hp0, rfl⟩ := List.mem_map.mp hx'.1
      refine ⟨p0, hp0, ?_, ?_⟩
      · have := hx'.2
        rw [hgid p0] at this
        exact (beq_iff_eq ..).mp ((Bool.and_eq_true ..).mp this).1
      · have := hx'.2
        rw [hguid p0] at this
        exact (beq_iff_eq ..).mp ((Bool.and_eq_true ..).mp this).2
    constructor
    · rw [hdb', List.map_map]
      have heq : db.profiles.map ((fun p : Profile => p.id) ∘ g) =
          db.profiles.map (fun p => p.id) := by
        apply List.map_congr_left
        intro p _
        exact hgid p
      rw [heq]
      exact hnd
    · intro uid _
      rw [defaultCount, hdb', List.countP_map]
      by_cases huid : userId = uid
      · subst huid
        have hpt : db.profiles.countP
            ((fun p => p.userId == userId && p.isDefault) ∘ g) =
            db.profiles.countP (fun p => p.id == id && p.userId == userId) := by
          apply List.countP_congr
          intro p _
          simp only [Function.comp]
          rw [hgdef]
          by_cases hpi : p.id = id <;> by_cases hpu : p.userId = userId <;>
            simp [hpi, hpu]
        rw [hpt]
        obtain ⟨p0, hp0, hp0id, hp0uid⟩ := hex
        have hub : db.profiles.countP (fun p => p.id == id && p.userId == userId) ≤
            db.profiles.countP (fun p => p.id == id) := by
          apply List.countP_mono_left
          intro x _ hx
          exact ((Bool.and_eq_true ..).mp hx).1
        have hub2 : db.profiles.countP (fun p => p.id == id) ≤ 1 := by
          have := countP_le_one_of_nodup_map (fun p : Profile => p.id) db.profiles hnd id
          simpa using this
        have hlb : 0 < db.profiles.countP (fun p => p.id == id && p.userId == userId) := by
          rw [List.countP_pos_iff]
          exact ⟨p0, hp0, by simp [hp0id, hp0uid]⟩
        omega
      · have hpt : db.profiles.countP
            ((fun p => p.userId == uid && p.isDefault) ∘ g) =
            db.profiles.countP (fun p => p.userId == uid && p.isDefault) := by
          apply List.countP_congr
          intro p _
          simp only [Function.comp]
          rw [hgdef]
          by_cases hpi : p.id = id <;> by_cases hpu : p.userId = userId <;>
            simp [hpi, hpu, huid]
        rw [hpt]
        have hpcsame : pageCount db' uid = pageCount db uid := by
          rw [pageCount, pageCount, hdb', List.countP_map]
          apply List.countP_congr
          intro p _
          simp only [Function.comp]
          rw [hguid p]
        have hpos : 0 < pageCount db uid := by
          rw [← hpcsame]
          assumption
        have := hinv uid hpos
        rw [defaultCount] at this
        exact this

theorem head?_take_one (l : List α) : (l.take 1).head? = l.head? := by
  cases l <;> rfl

theorem mem_of_head?_eq_some {l : List α} {a : α} (h : l.head? = some a) : a ∈ l := by
  cases l with
  | nil => cases h
  | cons x xs =>
    have hx : x = a := by simpa using h
    rw [← hx]
    exact List.mem_cons_self x xs

/-- In a table with duplicate-free ids, exactly one row matches the id (and
owner) of a present row. -/
theorem countP_pred_one (l : List Profile) (id userId : String) (profile : Profile)
    (hnd : (l.map (fun p => p.id)).Nodup) (hmem : profile ∈ l)
    (hpid : profile.id = id) (howner : profile.userId = userId) :
    l.countP (fun p => p.id == id && p.userId == userId) = 1 := by
  have hub : l.countP (fun p => p.id == id && p.userId == userId) ≤
      l.countP (fun p => p.id == id) := by
    apply List.countP_mono_left
    intro x _ hx
    exact ((Bool.and_eq_true ..).mp hx).1
  have hub2 : l.countP (fun p => p.id == id) ≤ 1 := by
    have := countP_le_one_of_nodup_map (fun p : Profile => p.id) l hnd id
    simpa using this
  have hlb : 0 < l.countP (fun p => p.id == id && p.userId == userId) := by
    rw [List.countP_pos_iff]
    exact ⟨profile, hmem, by simp [hpid, howner]⟩
  omega

theorem countP_id_one (l : List Profile) (x0 : Profile)
    (hnd : (l.map (fun p => p.id)).Nodup) (hmem : x0 ∈ l) :
    l.countP (fun p => p.id == x0.id) = 1 := by
  have hub : l.countP (fun p => p.id == x0.id) ≤ 1 := by
    have := countP_le_one_of_nodup_map (fun p : Profile => p.id) l hnd x0.id
    simpa using this
  have hlb : 0 < l.countP (fun p => p.id == x0.id) := by
    rw [List.countP_pos_iff]
    exact ⟨x0, hmem, by simp⟩
  omega

/-- Deleting a row that is not default (or is the owner's only row) keeps
unique ids and the one-default-per-user property of the remaining rows. -/
theorem delete_only_inv (l : List Profile) (id userId : String) (profile : Profile)
    (hnd : (l.map (fun p => p.id)).Nodup)
    (hinv : ∀ uid, 0 < l.countP (fun p => p.userId == uid) →
      l.countP (fun p => p.userId == uid && p.isDefault) = 1)
    (hmem : profile ∈ l) (hpid : profile.id = id) (howner : profile.userId = userId)
    (hsafe : profile.isDefault = false ∨ ∀ q ∈ l, q.userId = userId → q.id = id) :
    ((deleteWhere (fun p => p.id == id && p.userId == userId) l).map
      (fun p => p.id)).Nodup ∧
    (∀ uid, 0 < (deleteWhere (fun p => p.id == id && p.userId == userId) l).countP
        (fun p => p.userId == uid) →
      (deleteWhere (fun p => p.id == id && p.userId == userId) l).countP
        (fun p => p.userId == uid && p.isDefault) = 1) := by
  have huniq : ∀ p ∈ l, (p.id == id && p.userId == userId) = true → p = profile := by
    intro p hp hpp
    have hpidp : p.id = profile.id := by
      rw [hpid]
      exact (beq_iff_eq ..).mp ((Bool.and_eq_true ..).mp hpp).1
    exact List.inj_on_of_nodup_map hnd hp hmem hpidp
  constructor
  · exact ((List.filter_sublist l).map (fun p => p.id)).nodup hnd
  · intro uid hpc
    rw [countP_deleteWhere] at hpc ⊢
    by_cases huid : userId = uid
    · subst huid
      rcases hsafe with hnd_def | honly
      · have hdeq : l.countP
            (fun x => (x.userId == userId && x.isDefault) && !(x.id == id && x.userId == userId)) =
            l.countP (fun x => x.userId == userId && x.isDefault) := by
          apply List.countP_congr
          intro x hx
          by_cases hpx : (x.id == id && x.userId == userId) = true
          · have hxp : x = profile := huniq x hx hpx
            subst hxp
            simp [hnd_def]
          · simp [hpx]
        rw [hdeq]
        apply hinv userId
        rw [List.countP_pos_iff]
        exact ⟨profile, hmem, by simp [howner]⟩
      · exfalso
        have hzero : l.countP
            (fun x => x.userId == userId && !(x.id == id && x.userId == userId)) = 0 := by
          rw [List.countP_eq_zero]
          intro x hx
          by_cases hxu : x.userId = userId
          · have hxid : x.id = id := honly x hx hxu
            simp [hxu, hxid]
          · simp [hxu]
        rw [hzero] at hpc
        omega
    · have hpeq : l.countP
          (fun x => x.userId == uid && !(x.id == id && x.userId == userId)) =
          l.countP (fun x => x.userId == uid) := by
        apply List.countP_congr
        intro x _
        by_cases hxu : x.userId = uid
        · simp [hxu, Ne.symm huid]
        · simp [hxu]
      have hdeq : l.countP
          (fun x => (x.userId == uid && x.isDefault) && !(x.id == id && x.userId == userId)) =
          l.countP (fun x => x.userId == uid && x.isDefault) := by
        apply List.countP_congr
        intro x _
        by_cases hxu : x.userId = uid
        · simp [hxu, Ne.symm huid]
        · simp [hxu]
      rw [hpeq] at hpc
      rw [hdeq]
      exact hinv uid hpc

/-- Deleting the owner's default row after promoting another row of the same
owner keeps unique ids and restores exactly one default per user. -/
theorem delete_promote_inv (l : List Profile) (id userId : String) (now : Int)
    (profile other : Profile)
    (hnd : (l.map (fun p => p.id)).Nodup)
    (hinv : ∀ uid, 0 < l.countP (fun p => p.userId == uid) →
      l.countP (fun p => p.userId == uid && p.isDefault) = 1)
    (hmem : profile ∈ l) (hpid : profile.id = id) (howner : profile.userId = userId)
    (hdef : profile.isDefault = true)
    (homem : other ∈ l) (houid : other.userId = userId) (hoid : other.id ≠ id) :
    (((deleteWhere (fun p => p.id == id && p.userId == userId)
        (updateWhere (fun p => p.id == other.id)
          (fun p => { p with isDefault := true, updatedAt := now }) l)).map
      (fun p => p.id)).Nodup) ∧
    (∀ uid, 0 < (deleteWhere (fun p => p.id == id && p.userId == userId)
        (updateWhere (fun p => p.id == other.id)
          (fun p => { p with isDefault := true, updatedAt := now }) l)).countP
        (fun p => p.userId == uid) →
      (deleteWhere (fun p => p.id == id && p.userId == userId)
        (updateWhere (fun p => p.id == other.id)
          (fun p => { p with isDefault := true, updatedAt := now }) l)).countP
        (fun p => p.userId == uid && p.isDefault) = 1) := by
  have huniq_other : ∀ p ∈ l, (p.id == other.id) = true → p = other := by
    intro p hp hpp
    exact List.inj_on_of_nodup_map hnd hp homem ((beq_iff_eq ..).mp hpp)
  have hids : (updateWhere (fun p => p.id == other.id)
      (fun p => { p with isDefault := true, updatedAt := now }) l).map (fun p => p.id) =
      l.map (fun p => p.id) := by
    rw [updateWhere, List.map_map]
    apply List.map_congr_left
    intro p _
    simp only [Function.comp]
    by_cases hp : (p.id == other.id) = true <;> simp [hp]
  have hnd1 : ((updateWhere (fun p => p.id == other.id)
      (fun p => { p with isDefault := true, updatedAt := now }) l).map
      (fun p => p.id)).Nodup := by
    rw [hids]
    exact hnd
  constructor
  · exact ((List.filter_sublist _).map (fun p : Profile => p.id)).nodup hnd1
  · intro uid hpc
    rw [countP_deleteWhere, countP_updateWhere] at hpc ⊢
    by_cases huid : userId = uid
    · subst huid
      have hsplit := countP_ite_split (fun p : Profile => p.id == other.id)
        (fun p : Profile => ((({ p with isDefault := true, updatedAt := now } : Profile).userId == userId &&
          ({ p with isDefault := true, updatedAt := now } : Profile).isDefault) &&
          !(({ p with isDefault := true, updatedAt := now } : Profile).id == id &&
            ({ p with isDefault := true, updatedAt := now } : Profile).userId == userId)))
        (fun p : Profile => ((p.userId == userId && p.isDefault) && !(p.id == id && p.userId == userId))) l
      rw [hsplit]
      have hterm1 : l.countP (fun p => (p.id == other.id) &&
          ((({ p with isDefault := true, updatedAt := now } : Profile).userId == userId &&
            ({ p with isDefault := true, updatedAt := now } : Profile).isDefault) &&
          !(({ p with isDefault := true, updatedAt := now } : Profile).id == id &&
            ({ p with isDefault := true, updatedAt := now } : Profile).userId == userId))) =
          l.countP (fun p => p.id == other.id) := by
        apply List.countP_congr
        intro p hp
        by_cases hpo : (p.id == other.id) = true
        · have hpe : p = other := huniq_other p hp hpo
          subst hpe
          simp [houid, hoid]
        · simp [hpo]
      have hterm2 : l.countP (fun p => !(p.id == other.id) &&
          ((p.userId == userId && p.isDefault) && !(p.id == id && p.userId == userId))) = 0 := by
        have hd1 : l.countP (fun p => p.userId == userId && p.isDefault) = 1 := by
          apply hinv userId
          rw [List.countP_pos_iff]
          exact ⟨profile, hmem, by simp [howner]⟩
        have hsplit2 := countP_split (fun p : Profile => p.id == id && p.userId == userId)
          (fun p => p.userId == userId && p.isDefault) l
        have hone : 0 < l.countP (fun p =>
            (p.id == id && p.userId == userId) && (p.userId == userId && p.isDefault)) := by
          rw [List.countP_pos_iff]
          exact ⟨profile, hmem, by simp [hpid, howner, hdef]⟩
        have hzero : l.countP (fun p =>
            !(p.id == id && p.userId == userId) && (p.userId == userId && p.isDefault)) = 0 := by
          omega
        have hle : l.countP (fun p => !(p.id == other.id) &&
            ((p.userId == userId && p.isDefault) && !(p.id == id && p.userId == userId))) ≤
            l.countP (fun p =>
              !(p.id == id && p.userId == userId) && (p.userId == userId && p.isDefault)) := by
          apply List.countP_mono_left
          intro x _ hx
          have h1 := ((Bool.and_eq_true ..).mp hx).2
          have h2 := ((Bool.and_eq_true ..).mp h1).1
          have h3 := ((Bool.and_eq_true ..).mp h1).2
          rw [Bool.and_eq_true]
          exact ⟨h3, h2⟩
        omega
      rw [hterm1, hterm2, countP_id_one l other hnd homem]
    · have hpeq : l.countP (fun p => if (p.id == other.id) = true then
          (({ p with isDefault := true, updatedAt := now } : Profile).userId == uid &&
            !(({ p with isDefault := true, updatedAt := now } : Profile).id == id &&
              ({ p with isDefault := true, updatedAt := now } : Profile).userId == userId))
          else (p.userId == uid && !(p.id == id && p.userId == userId))) =
          l.countP (fun p => p.userId == uid) := by
        apply List.countP_congr
        intro p hp2
        by_cases hpo : (p.id == other.id) = true
        · have hpe : p = other := huniq_other p hp2 hpo
          subst hpe
          by_cases hxu : p.userId = uid <;> simp [hpo, hxu, houid, huid, Ne.symm huid]
        · by_cases hxu : p.userId = uid <;> simp [hpo, hxu, huid, Ne.symm huid]
      have hdeq : l.countP (fun p => if (p.id == other.id) = true then
          ((({ p with isDefault := true, updatedAt := now } : Profile).userId == uid &&
            ({ p with isDefault := true, updatedAt := now } : Profile).isDefault) &&
            !(({ p with isDefault := true, updatedAt := now } : Profile).id == id &&
              ({ p with isDefault := true, updatedAt := now } : Profile).userId == userId))
          else ((p.userId == uid && p.isDefault) && !(p.id == id && p.userId == userId))) =
          l.countP (fun p => p.userId == uid && p.isDefault) := by
        apply List.countP_congr
        intro p hp
        by_cases hpo : (p.id == other.id) = true
        · have hpe : p = other := huniq_other p hp hpo
          subst hpe
          simp [houid, huid, Ne.symm huid]
        · by_cases hxu : p.userId = uid <;> simp [hpo, hxu, huid, Ne.symm huid]
      rw [hpeq] at hpc
      rw [hdeq]
      exact hinv uid hpc

/-- `deleteBioPage` preserves unique profile ids and the default-page
invariant in every case: missing page, foreign owner, non-default page,
default page with promotion, and default-and-only page. -/
theorem deleteBioPage_inv (db : DB) (id userId : String) (now : Int)
    (hnd : (db.profiles.map (fun p => p.id)).Nodup)
    (hinv : defaultInvariant db) :
    ((deleteBioPage db id userId now).1.profiles.map (fun p => p.id)).Nodup ∧
    defaultInvariant (deleteBioPage db id userId now).1 := by
  rw [deleteBioPage]
  cases hfind : getProfileById db id with
  | none => exact ⟨hnd, hinv⟩
  | some profile =>
    dsimp only
    rw [getProfileById] at hfind
    have hmem : profile ∈ db.profiles := List.mem_of_find?_eq_some hfind
    have hpid : profile.id = id := by
      have := List.find?_some hfind
      simpa using this
    by_cases howner : profile.userId = userId
    · have hb : ¬((profile.userId != userId) = true) := by simp [howner]
      rw [if_neg hb]
      by_cases hdef : profile.isDefault = true
      · rw [hdef, if_pos rfl]
        dsimp only
        rw [head?_take_one]
        cases hoth : (List.filter (fun p => p.userId == userId && p.id != id) db.profiles).head? with
        | none =>
          have hfil : List.filter (fun p => p.userId == userId && p.id != id) db.profiles = [] :=
            List.head?_eq_none_iff.mp hoth
          have honly : ∀ q ∈ db.profiles, q.userId = userId → q.id = id := by
            intro q hq hqu
            have := List.filter_eq_nil_iff.mp hfil q hq
            by_contra hne'
            exact this (by simp [hqu, hne'])
          have hres := delete_only_inv db.profiles id userId profile hnd hinv hmem hpid
            howner (Or.inr honly)
          exact ⟨hres.1, hres.2⟩
        | some other =>
          have homem' : other ∈ List.filter (fun p => p.userId == userId && p.id != id)
              db.profiles := mem_of_head?_eq_some hoth
          have hof := List.mem_filter.mp homem'
          have houid : other.userId = userId :=
            (beq_iff_eq ..).mp ((Bool.and_eq_true ..).mp hof.2).1
          have hoid : other.id ≠ id := by
            have := ((Bool.and_eq_true ..).mp hof.2).2
            simpa using this
          have hres := delete_promote_inv db.profiles id userId now profile other hnd hinv
            hmem hpid howner hdef hof.1 houid hoid
          exact ⟨hres.1, hres.2⟩
      · rw [if_neg hdef]
        have hres := delete_only_inv db.profiles id userId profile hnd hinv hmem hpid
          howner (Or.inl (by simpa using hdef))
        exact ⟨hres.1, hres.2⟩
    · have hb : (profile.userId != userId) = true := by simp [howner]
      rw [if_pos hb]
      exact ⟨hnd, hinv⟩

/-- When `deleteBioPage` removes a user's default page and the user owns
another page, some remaining page of the same user ends up default. -/
theorem deleteBioPage_promotes (db : DB) (id uid : String) (now : Int)
    (profile : Profile)
    (hfind : getProfileById db id = some profile) (howner : profile.userId = uid)
    (hdef : profile.isDefault = true)
    (hq : ∃ q ∈ db.profiles, q.userId = uid ∧ q.id ≠ id) :
    ∃ r ∈ (deleteBioPage db id uid now).1.profiles,
      r.userId = uid ∧ r.isDefault = true := by
  rw [deleteBioPage, hfind]
  dsimp only
  have hb : ¬((profile.userId != uid) = true) := by simp [howner]
  rw [if_neg hb, hdef, if_pos rfl]
  dsimp only
  rw [head?_take_one]
  cases hoth : (List.filter (fun p => p.userId == uid && p.id != id) db.profiles).head? with
  | none =>
    exfalso
    have hfil : List.filter (fun p => p.userId == uid && p.id != id) db.profiles = [] :=
      List.head?_eq_none_iff.mp hoth
    obtain ⟨q, hqmem, hquid, hqid⟩ := hq
    exact List.filter_eq_nil_iff.mp hfil q hqmem (by simp [hquid, hqid])
  | some other =>
    have homem' : other ∈ List.filter (fun p => p.userId == uid && p.id != id)
        db.profiles := mem_of_head?_eq_some hoth
    have hof := List.mem_filter.mp homem'
    have houid : other.userId = uid :=
      (beq_iff_eq ..).mp ((Bool.and_eq_true ..).mp hof.2).1
    have hoid : other.id ≠ id := by
      have := ((Bool.and_eq_true ..).mp hof.2).2
      simpa using this
    refine ⟨{ other with isDefault := true, updatedAt := now }, ?_, houid, rfl⟩
    dsimp only
    rw [deleteWhere]
    rw [List.mem_filter]
    constructor
    · rw [updateWhere]
      have := List.mem_map_of_mem (fun p : Profile =>
        if p.id == other.id then { p with isDefault := true, updatedAt := now } else p) hof.1
      simpa using this
    · simp [hoid]
  
/-- When `deleteBioPage` removes a user's default and only page, no other row
is promoted or modified: the result is the plain deletion of that row. -/
theorem deleteBioPage_no_promotion (db : DB) (id uid : String) (now : Int)
    (profile : Profile)
    (hfind : getProfileById db id = some profile) (howner : profile.userId = uid)
    (hdef : profile.isDefault = true)
    (hall : ∀ q ∈ db.profiles, q.userId = uid → q.id = id) :
    (deleteBioPage db id uid now).1.profiles =
      deleteWhere (fun p => p.id == id && p.userId == uid) db.profiles := by
  rw [deleteBioPage, hfind]
  dsimp only
  have hb : ¬((profile.userId != uid) = true) := by simp [howner]
  rw [if_neg hb, hdef, if_pos rfl]
  dsimp only
  rw [head?_take_one]
  cases hoth : (List.filter (fun p => p.userId == uid && p.id != id) db.profiles).head? with
  | none => rfl
  | some other =>
    exfalso
    have homem' : other ∈ List.filter (fun p => p.userId == uid && p.id != id)
        db.profiles := mem_of_head?_eq_some hoth
    have hof := List.mem_filter.mp homem'
    have houid : other.userId = uid :=
      (beq_iff_eq ..).mp ((Bool.and_eq_true ..).mp hof.2).1
    have hoid : other.id ≠ id := by
      have := ((Bool.and_eq_true ..).mp hof.2).2
      simpa using this
    exact hoid (hall other hof.1 houid)

/-- One bio-page operation preserves unique ids and the default invariant. -/
theorem BioStep_inv {db db' : DB} (hstep : BioStep db db')
    (hnd : (db.profiles.map (fun p => p.id)).Nodup)
    (hinv : defaultInvariant db) :
    (db'.profiles.map (fun p => p.id)).Nodup ∧ defaultInvariant db' := by
  cases hstep with
  | create userId pd gravatar newId now hfresh =>
    exact createBioPage_inv db userId pd gravatar newId now hfresh hnd hinv
  | delete id userId now =>
    exact deleteBioPage_inv db id userId now hnd hinv
  | setDefault id userId now _ h =>
    exact setDefaultBioPage_inv db id userId now db' h hnd hinv

/-- C1: after any sequence of `createBioPage`, `deleteBioPage` and successful
`setDefaultBioPage` operations from a database with duplicate-free profile
ids satisfying the default-page invariant, every user owning at least one
page has exactly one page with `isDefault = true` (never zero, never more
than one); furthermore, at any such database, deleting a user's default page
promotes some remaining page of that user to default when one exists, and
when the page was the user's only one the operation is the plain removal of
that row with no promotion. -/
theorem default_page_invariant (db0 db : DB)
    (hreach : Relation.ReflTransGen BioStep db0 db)
    (hnd0 : (db0.profiles.map (fun p => p.id)).Nodup)
    (hinv0 : defaultInvariant db0) :
    (∀ uid, 0 < pageCount db uid → defaultCount db uid = 1) ∧
    (∀ id uid now profile, getProfileById db id = some profile →
      profile.userId = uid → profile.isDefault = true →
      ((∃ q ∈ db.profiles, q.userId = uid ∧ q.id ≠ id) →
        ∃ r ∈ (deleteBioPage db id uid now).1.profiles,
          r.userId = uid ∧ r.isDefault = true) ∧
      ((∀ q ∈ db.profiles, q.userId = uid → q.id = id) →
        (deleteBioPage db id uid now).1.profiles =
          deleteWhere (fun p => p.id == id && p.userId == uid) db.profiles)) := by
  have hmain : (db.profiles.map (fun p => p.id)).Nodup ∧ defaultInvariant db := by
    induction hreach with
    | refl => exact ⟨hnd0, hinv0⟩
    | tail hsteps hstep ih => exact BioStep_inv hstep ih.1 ih.2
  refine ⟨hmain.2, ?_⟩
  intro id uid now profile hfind howner hdef
  exact ⟨deleteBioPage_promotes db id uid now profile hfind howner hdef,
    deleteBioPage_no_promotion db id uid now profile hfind howner hdef⟩

/-- Witness for C1: creating a first page for user `u1` in an empty database
leaves `u1` with exactly one default page. -/
theorem default_page_invariant_witness :
    defaultCount (createBioPage
      { users := [], profiles := [], socialLinks := [], themes := [] }
      "u1" { pageName := "me", displayName := "Me", bio := "hi", profileImageUrl := none }
      none "p1" 0).1 "u1" = 1 :=
  (default_page_invariant
    { users := [], profiles := [], socialLinks := [], themes := [] }
    (createBioPage
      { users := [], profiles := [], socialLinks := [], themes := [] }
      "u1" { pageName := "me", displayName := "Me", bio := "hi", profileImageUrl := none }
      none "p1" 0).1
    (Relation.ReflTransGen.single (BioStep.create
      { users := [], profiles := [], socialLinks := [], themes := [] }
      "u1" { pageName := "me", displayName := "Me", bio := "hi", profileImageUrl := none }
      none "p1" 0 (by intro p hp; cases hp)))
    (by simp)
    (by intro uid h; simp [pageCount] at h)).1 "u1" (by decide)
